import Mathlib

/-!
Verification of the SG-Fire-Calculator projection engine.

The definitions below are a shallow embedding of `src/lib/calculator.ts`,
`src/lib/cpf.ts` and the runway computation of
`src/components/CountryDetail.tsx`.  JavaScript numbers are modelled as
exact rationals (`ℚ`); `Math.max`, `Math.min`, `Math.floor` and
`Math.round` become the corresponding operations on `ℚ`/`ℤ`
(`Math.round x` in JavaScript is `⌊x + 1/2⌋`).  Loops that push records
into arrays become structural recursions producing lists; an early
`break` becomes the corresponding branch of the recursion.
-/

/-- JavaScript `Math.round`: round half toward positive infinity. -/
def jsRound (q : ℚ) : ℤ := ⌊q + 1/2⌋

/-- JavaScript `Math.max` on two (non-NaN) numbers. -/
def jsMax (a b : ℚ) : ℚ := if a < b then b else a

/-- JavaScript `Math.min` on two (non-NaN) numbers. -/
def jsMin (a b : ℚ) : ℚ := if a < b then a else b

/-- `PortfolioInputs` from calculator.ts. -/
structure PortfolioInputs where
  currentSavings : ℚ
  monthlyContribution : ℚ
  yearsToRetirement : ℕ
  expectedReturn : ℚ
  inflationRate : ℚ
  withdrawalRate : ℚ
deriving DecidableEq, Repr

/-- `SimulationResult` from calculator.ts (one record per projected year). -/
structure SimulationResult where
  year : ℕ
  age : ℤ
  portfolioValue : ℚ
  contribution : ℚ
  returns : ℚ
  withdrawal : ℚ
  inflationAdjustedValue : ℚ
deriving DecidableEq, Repr

/-- The all-zero `SimulationResult` used as a lookup default (a JS access
past the end of the array would be `undefined`; the engine never performs
such an access on the lists we use it with). -/
def simZero : SimulationResult := ⟨0, 0, 0, 0, 0, 0, 0⟩

/-- Portfolio value recorded at year `n` of `calculateAccumulation`:
`portfolioValue` starts at `currentSavings` and after recording year `n`
is updated by `portfolioValue + contribution + returns`, where the year-0
contribution is `0` and later contributions are `monthlyContribution * 12`,
and `returns = portfolioValue * expectedReturn`. -/
def accumValue (inputs : PortfolioInputs) : ℕ → ℚ
  | 0 => inputs.currentSavings
  | n + 1 =>
    let prev := accumValue inputs n
    let contribution : ℚ := if n = 0 then 0 else inputs.monthlyContribution * 12
    prev + contribution + prev * inputs.expectedReturn

/-- `calculateAccumulation` from calculator.ts: one record per year
`0 .. yearsToRetirement`, each a pre-growth snapshot.  The running
`cumulativeInflation` is multiplied by `1 + inflationRate` before the
record for year `y` is pushed, so at year `y` it equals
`(1 + inflationRate)^(y+1)`. -/
def calculateAccumulation (inputs : PortfolioInputs) (currentAge : ℤ) :
    List SimulationResult :=
  (List.range (inputs.yearsToRetirement + 1)).map fun year =>
    let pv := accumValue inputs year
    { year := year
      age := currentAge + year
      portfolioValue := pv
      contribution := if year = 0 then 0 else inputs.monthlyContribution * 12
      returns := pv * inputs.expectedReturn
      withdrawal := 0
      inflationAdjustedValue := pv / (1 + inputs.inflationRate) ^ (year + 1) }

/-- The zero-valued terminal record pushed by `calculateDrawdown` for every
year after depletion. -/
def drawZeroRecord (startAge : ℤ) (y : ℕ) : SimulationResult :=
  ⟨y, startAge + y, 0, 0, 0, 0, 0⟩

/-- The loop body of `calculateDrawdown` from calculator.ts.  The loop runs
`year` from `0` to `years`; `rem + 1` is the number of loop iterations still
to run, so `rem = years - year`.  When the updated portfolio is `≤ 0` the
source pushes zero records for all remaining years and breaks. -/
def drawdownAux (expectedReturn inflationRate : ℚ) (startAge : ℤ) :
    ℕ → ℕ → ℚ → ℚ → ℚ → List SimulationResult
  | 0, _, _, _, _ => []
  | rem + 1, year, portfolioValue, currentWithdrawal, cumulativeInflation =>
    let returns := portfolioValue * expectedReturn
    let withdrawal : ℚ := if year = 0 then 0 else currentWithdrawal
    let cumulativeInflation' := cumulativeInflation * (1 + inflationRate)
    let record : SimulationResult :=
      { year := year
        age := startAge + year
        portfolioValue := jsMax 0 portfolioValue
        contribution := 0
        returns := if 0 < portfolioValue then returns else 0
        withdrawal := withdrawal
        inflationAdjustedValue := jsMax 0 portfolioValue / cumulativeInflation' }
    let portfolioValue' := portfolioValue + returns - withdrawal
    if portfolioValue' ≤ 0 then
      record :: (List.range' (year + 1) rem).map (drawZeroRecord startAge)
    else
      record :: drawdownAux expectedReturn inflationRate startAge rem
        (year + 1) portfolioValue' (currentWithdrawal * (1 + inflationRate))
        cumulativeInflation'

/-- `calculateDrawdown` from calculator.ts. -/
def calculateDrawdown (startingPortfolio annualWithdrawal expectedReturn
    inflationRate : ℚ) (years : ℕ) (startAge : ℤ) : List SimulationResult :=
  drawdownAux expectedReturn inflationRate startAge (years + 1) 0
    startingPortfolio annualWithdrawal 1

/-- `FIREResult` from calculator.ts. -/
structure FIREResult where
  portfolioAtRetirement : ℚ
  annualWithdrawal : ℚ
  monthlyWithdrawal : ℚ
  yearsOfRunway : ℕ
  projections : List SimulationResult
  successProbability : ℚ
  fireNumber : ℚ
deriving DecidableEq, Repr

/-- `calculateFIRE` from calculator.ts.  `accumulationResults[length - 1]`
is modelled by `getLastD` (the accumulation list is never empty). -/
def calculateFIRE (inputs : PortfolioInputs) (currentAge : ℤ)
    (monthlyExpenses : ℚ) (retirementYears : ℕ) : FIREResult :=
  let accumulationResults := calculateAccumulation inputs currentAge
  let portfolioAtRetirement := (accumulationResults.getLastD simZero).portfolioValue
  let annualExpenses := monthlyExpenses * 12
  let fireNumber := annualExpenses / inputs.withdrawalRate
  let annualWithdrawal := portfolioAtRetirement * inputs.withdrawalRate
  let monthlyWithdrawal := annualWithdrawal / 12
  let retirementAge := currentAge + inputs.yearsToRetirement
  let drawdownResults := calculateDrawdown portfolioAtRetirement annualWithdrawal
    (inputs.expectedReturn - 1/100) inputs.inflationRate retirementYears retirementAge
  let depletionYear := drawdownResults.findIdx? fun r => r.portfolioValue ≤ 0
  let yearsOfRunway := match depletionYear with
    | none => retirementYears
    | some d => d
  let successProbability : ℚ :=
    if fireNumber ≤ portfolioAtRetirement then 19/20
    else portfolioAtRetirement / fireNumber * (4/5)
  { portfolioAtRetirement := portfolioAtRetirement
    annualWithdrawal := annualWithdrawal
    monthlyWithdrawal := monthlyWithdrawal
    yearsOfRunway := yearsOfRunway
    projections := accumulationResults ++ drawdownResults.drop 1
    successProbability := jsMin successProbability (99/100)
    fireNumber := fireNumber }

/-- `calculateAffordableBudget` from calculator.ts: annualized withdrawal,
converted with the fixed `sgdToUsd = 0.74` constant. -/
def calculateAffordableBudget (portfolioValue withdrawalRate : ℚ) :
    ℚ × ℚ :=
  let annualWithdrawalSGD := portfolioValue * withdrawalRate
  let monthlyWithdrawalSGD := annualWithdrawalSGD / 12
  let sgdToUsd : ℚ := 74/100
  let monthlyUSD := monthlyWithdrawalSGD * sgdToUsd
  (monthlyUSD, monthlyUSD * 12)

/-- The runway computation of `CountryDetail` (CountryDetail.tsx lines
32-43): `annualBudget = monthlyBudget * 12`,
`annualWithdrawal = portfolioValue * withdrawalRate * 0.74`,
`yearsOfRunway = annualWithdrawal / annualBudget`. -/
def countryRunway (portfolioValue withdrawalRate monthlyBudget : ℚ) : ℚ :=
  let annualBudget := monthlyBudget * 12
  let sgdToUsd : ℚ := 74/100
  let annualWithdrawal := portfolioValue * withdrawalRate * sgdToUsd
  annualWithdrawal / annualBudget


/-! ### Small helpers -/

theorem jsMax_zero_nonneg (q : ℚ) : 0 ≤ jsMax 0 q := by
  unfold jsMax
  split_ifs with h
  · exact le_of_lt h
  · exact le_refl 0

theorem jsMax_zero_pos {q : ℚ} (h : 0 < q) : jsMax 0 q = q := if_pos h

theorem jsMax_zero_of_nonpos {q : ℚ} (h : q ≤ 0) : jsMax 0 q = 0 :=
  if_neg (not_lt.mpr h)

/-- Elements of `(List.range' s n).map f` at index `k` are `f (s + k)`. -/
theorem getElem?_range'_map {α : Type} (f : ℕ → α) :
    ∀ (n s k : ℕ) (r : α), ((List.range' s n).map f)[k]? = some r → k < n ∧ r = f (s + k) := by
  intro n
  induction n with
  | zero => intro s k r h; simp at h
  | succ n ih =>
    intro s k r h
    rw [List.range'_succ, List.map_cons] at h
    rcases k with _ | k
    · rw [List.getElem?_cons_zero] at h
      exact ⟨Nat.succ_pos n, by simpa using h.symm⟩
    · rw [List.getElem?_cons_succ] at h
      obtain ⟨hk, hr⟩ := ih (s + 1) k r h
      exact ⟨by omega, by rw [hr]; congr 1; omega⟩

/-! ### Claim C2: depletion freezing in `calculateDrawdown` -/

/-- A drawdown record whose payload fields are all zero (the year and age
labels are excluded, as in the spec's depletion rule). -/
abbrev allZeroRecord (r : SimulationResult) : Prop :=
  r.portfolioValue = 0 ∧ r.contribution = 0 ∧ r.returns = 0 ∧
    r.withdrawal = 0 ∧ r.inflationAdjustedValue = 0

theorem allZeroRecord_drawZeroRecord (a : ℤ) (y : ℕ) :
    allZeroRecord (drawZeroRecord a y) :=
  ⟨rfl, rfl, rfl, rfl, rfl⟩

/-- Every record produced by the drawdown loop has a non-negative
recorded `portfolioValue`. -/
theorem drawdownAux_nonneg (r i : ℚ) (a : ℤ) :
    ∀ (rem year : ℕ) (pv w cum : ℚ) (j : ℕ) (rj : SimulationResult),
      (drawdownAux r i a rem year pv w cum)[j]? = some rj →
      0 ≤ rj.portfolioValue := by
  intro rem
  induction rem with
  | zero => intro year pv w cum j rj h; simp [drawdownAux] at h
  | succ rem ih =>
    intro year pv w cum j rj h
    rw [drawdownAux] at h
    by_cases hdep : pv + pv * r - (if year = 0 then (0:ℚ) else w) ≤ 0
    · rw [if_pos hdep] at h
      rcases j with _ | j
      · rw [List.getElem?_cons_zero] at h
        cases h
        exact jsMax_zero_nonneg pv
      · rw [List.getElem?_cons_succ] at h
        obtain ⟨-, hr⟩ := getElem?_range'_map (drawZeroRecord a) rem (year + 1) j rj h
        rw [hr]
        exact le_refl 0
    · rw [if_neg hdep] at h
      rcases j with _ | j
      · rw [List.getElem?_cons_zero] at h
        cases h
        exact jsMax_zero_nonneg pv
      · rw [List.getElem?_cons_succ] at h
        exact ih _ _ _ _ _ _ h

/-- Once a record of the drawdown loop carries `portfolioValue = 0`,
every record from it onwards is all-zero (the loop is only ever entered
with a positive portfolio, except at year 0). -/
theorem drawdownAux_frozen (r i : ℚ) (a : ℤ) :
    ∀ (rem year : ℕ) (pv w cum : ℚ), (0 < pv ∨ year = 0) → 0 ≤ pv →
    ∀ (j k : ℕ) (rj rk : SimulationResult), j ≤ k →
      (drawdownAux r i a rem year pv w cum)[j]? = some rj →
      (drawdownAux r i a rem year pv w cum)[k]? = some rk →
      rj.portfolioValue = 0 → allZeroRecord rk := by
  intro rem
  induction rem with
  | zero => intro year pv w cum _ _ j k rj rk _ hj _ _; simp [drawdownAux] at hj
  | succ rem ih =>
    intro year pv w cum H hpv j k rj rk hjk hj hk hz
    rcases eq_or_lt_of_le hpv with hpv0 | hpvpos
    · -- portfolio is exactly 0, hence year = 0 and every record is all-zero
      have hyear : year = 0 := by
        rcases H with H | H
        · exact absurd H (by rw [← hpv0]; exact lt_irrefl 0)
        · exact H
      subst hyear
      rw [← hpv0] at hk
      rw [drawdownAux] at hk
      norm_num [jsMax] at hk
      rcases k with _ | k
      · rw [List.getElem?_cons_zero] at hk
        cases hk
        exact ⟨rfl, rfl, rfl, rfl, by norm_num⟩
      · rw [List.getElem?_cons_succ] at hk
        obtain ⟨-, hr⟩ := getElem?_range'_map _ rem 1 k rk hk
        rw [hr]
        exact allZeroRecord_drawZeroRecord a _
    · -- positive portfolio: the head record is nonzero, recurse on the tail
      rw [drawdownAux] at hj hk
      by_cases hdep : pv + pv * r - (if year = 0 then (0:ℚ) else w) ≤ 0
      · rw [if_pos hdep] at hj hk
        rcases j with _ | j
        · rw [List.getElem?_cons_zero] at hj
          cases hj
          have h0 : jsMax 0 pv = 0 := hz
          rw [jsMax_zero_pos hpvpos] at h0
          exact absurd h0 (ne_of_gt hpvpos)
        · rcases k with _ | k
          · omega
          · rw [List.getElem?_cons_succ] at hk
            obtain ⟨-, hr⟩ := getElem?_range'_map _ rem (year + 1) k rk hk
            rw [hr]
            exact allZeroRecord_drawZeroRecord a _
      · rw [if_neg hdep] at hj hk
        rcases j with _ | j
        · rw [List.getElem?_cons_zero] at hj
          cases hj
          have h0 : jsMax 0 pv = 0 := hz
          rw [jsMax_zero_pos hpvpos] at h0
          exact absurd h0 (ne_of_gt hpvpos)
        · rcases k with _ | k
          · omega
          · rw [List.getElem?_cons_succ] at hj hk
            have hpos : (0:ℚ) < pv + pv * r - (if year = 0 then (0:ℚ) else w) :=
              not_le.mp hdep
            exact ih (year + 1) _ _ _ (Or.inl hpos) (le_of_lt hpos)
              j k rj rk (by omega) hj hk hz

/-- C2: in `calculateDrawdown` with non-negative starting portfolio,
withdrawal, expected return and inflation rate, no record ever carries a
negative `portfolioValue`, and once a year's recorded `portfolioValue` is
`0` every subsequent record is all-zero. -/
theorem calculateDrawdown_depletion (start w r i : ℚ) (years : ℕ) (a : ℤ)
    (h1 : 0 ≤ start) (h2 : 0 ≤ w) (h3 : 0 ≤ r) (h4 : 0 ≤ i) :
    ∀ (j k : ℕ) (rj rk : SimulationResult), j ≤ k →
      (calculateDrawdown start w r i years a)[j]? = some rj →
      (calculateDrawdown start w r i years a)[k]? = some rk →
      0 ≤ rj.portfolioValue ∧ (rj.portfolioValue = 0 → allZeroRecord rk) := by
  intro j k rj rk hjk hj hk
  exact ⟨drawdownAux_nonneg r i a _ _ _ _ _ _ _ hj,
    drawdownAux_frozen r i a (years + 1) 0 start w 1 (Or.inr rfl) h1 j k rj rk hjk hj hk⟩

/-- Witness for C2 at a depleting concrete run: `calculateDrawdown 10 100 0 0 3 65`
depletes after year 1; the record at year 2 has `portfolioValue = 0` and the
record at year 3 is all-zero. -/
theorem calculateDrawdown_depletion_witness :
    0 ≤ ((calculateDrawdown 10 100 0 0 3 65).getD 2 simZero).portfolioValue ∧
    allZeroRecord ((calculateDrawdown 10 100 0 0 3 65).getD 3 simZero) := by
  have h2 : (calculateDrawdown 10 100 0 0 3 65)[2]? = some (drawZeroRecord 65 2) := by
    norm_num [calculateDrawdown, drawdownAux, drawZeroRecord, jsMax]
  have h3 : (calculateDrawdown 10 100 0 0 3 65)[3]? = some (drawZeroRecord 65 3) := by
    norm_num [calculateDrawdown, drawdownAux, drawZeroRecord, jsMax]
  have h := calculateDrawdown_depletion 10 100 0 0 3 65 (by norm_num) (by norm_num)
    le_rfl le_rfl 2 3 _ _ (by norm_num) h2 h3
  rw [List.getD_eq_getElem?_getD, List.getD_eq_getElem?_getD, h2, h3]
  exact ⟨h.1, h.2 rfl⟩

/-! ### Claim C9: inflation applies to the withdrawal already from year 1 -/

/-- Records of the drawdown loop: the record at list position `k` belongs
to year `year + k`; its withdrawal is `w * (1+i)^k` unless it is the year-0
record or a post-depletion filler (both 0); in particular any record with a
positive portfolio value at a year `≥ 1` shows the inflated withdrawal. -/
theorem drawdownAux_withdrawal (r i : ℚ) (a : ℤ) :
    ∀ (rem year : ℕ) (pv w cum : ℚ) (k : ℕ) (rec : SimulationResult),
      (drawdownAux r i a rem year pv w cum)[k]? = some rec →
      rec.year = year + k ∧
      (rec.withdrawal = w * (1 + i) ^ k ∨ rec.withdrawal = 0) ∧
      (0 < rec.portfolioValue → 1 ≤ rec.year → rec.withdrawal = w * (1 + i) ^ k) := by
  intro rem
  induction rem with
  | zero => intro year pv w cum k rec h; simp [drawdownAux] at h
  | succ rem ih =>
    intro year pv w cum k rec h
    rw [drawdownAux] at h
    by_cases hdep : pv + pv * r - (if year = 0 then (0:ℚ) else w) ≤ 0
    · rw [if_pos hdep] at h
      rcases k with _ | k
      · rw [List.getElem?_cons_zero] at h
        cases h
        refine ⟨by simp, ?_, ?_⟩
        · by_cases hy : year = 0
          · exact Or.inr (if_pos hy)
          · rw [if_neg hy, pow_zero, mul_one]
            exact Or.inl rfl
        · intro _ hy1
          have hy : ¬ year = 0 := by
            simp only at hy1
            omega
          rw [if_neg hy, pow_zero, mul_one]
      · rw [List.getElem?_cons_succ] at h
        obtain ⟨hk, hr⟩ := getElem?_range'_map (drawZeroRecord a) rem (year + 1) k rec h
        rw [hr]
        refine ⟨by simp [drawZeroRecord]; omega, Or.inr rfl, ?_⟩
        intro hpv _
        exact absurd hpv (by simp [drawZeroRecord])
    · rw [if_neg hdep] at h
      rcases k with _ | k
      · rw [List.getElem?_cons_zero] at h
        cases h
        refine ⟨by simp, ?_, ?_⟩
        · by_cases hy : year = 0
          · exact Or.inr (if_pos hy)
          · rw [if_neg hy, pow_zero, mul_one]
            exact Or.inl rfl
        · intro _ hy1
          have hy : ¬ year = 0 := by
            simp only at hy1
            omega
          rw [if_neg hy, pow_zero, mul_one]
      · rw [List.getElem?_cons_succ] at h
        obtain ⟨hyear, hw, hpos⟩ := ih (year + 1) _ _ _ k rec h
        refine ⟨by omega, ?_, ?_⟩
        · rcases hw with hw | hw
          · exact Or.inl (by rw [hw]; ring)
          · exact Or.inr hw
        · intro h1 h2
          rw [hpos h1 h2]
          ring

/-- C9: in `calculateDrawdown`, the inflation multiplier is already applied
during year 0, so the record at year `n` (whenever its portfolio is still
positive and `n ≥ 1`) shows withdrawal `annualWithdrawal * (1+inflationRate)^n`;
every other record (year 0 or post-depletion) shows withdrawal 0.  The first
nonzero withdrawal is therefore `annualWithdrawal * (1+inflationRate)`, never
the raw `annualWithdrawal`. -/
theorem calculateDrawdown_withdrawal_inflation (start w r i : ℚ) (years : ℕ)
    (a : ℤ) (hy : 1 ≤ years) (hi : 0 ≤ i) :
    ∀ (n : ℕ) (rec : SimulationResult),
      (calculateDrawdown start w r i years a)[n]? = some rec →
      (rec.withdrawal = w * (1 + i) ^ n ∨ rec.withdrawal = 0) ∧
      (0 < rec.portfolioValue → 1 ≤ n → rec.withdrawal = w * (1 + i) ^ n) := by
  intro n rec h
  obtain ⟨hyear, hw, hpos⟩ := drawdownAux_withdrawal r i a (years + 1) 0 start w 1 n rec h
  exact ⟨hw, fun h1 h2 => hpos h1 (by omega)⟩

/-- Witness for C9: in `calculateDrawdown 1000 100 0 (1/10) 2 65` the record
at year 2 (portfolio still positive) shows withdrawal `100 * (1 + 1/10)^2 = 121`. -/
theorem calculateDrawdown_withdrawal_inflation_witness :
    ((calculateDrawdown 1000 100 0 (1/10) 2 65)[2]?).map SimulationResult.withdrawal
      = some (100 * (1 + 1/10) ^ 2) := by
  have hsome : (calculateDrawdown 1000 100 0 (1/10) 2 65)[2]?
      = some ⟨2, 67, 890, 0, 0, 121, 890000/1331⟩ := by
    norm_num [calculateDrawdown, drawdownAux, jsMax]
  have h := (calculateDrawdown_withdrawal_inflation 1000 100 0 (1/10) 2 65
    (by norm_num) (by norm_num) 2 _ hsome).2 (by norm_num) (by norm_num)
  rw [hsome]
  simpa using h

/-! ### Claim C3: closed form of the portfolio at retirement -/

/-- The portfolio at retirement extracted by `calculateFIRE` is the
accumulation value at year `yearsToRetirement`. -/
theorem calculateFIRE_portfolioAtRetirement (inputs : PortfolioInputs)
    (currentAge : ℤ) (monthlyExpenses : ℚ) (retirementYears : ℕ) :
    (calculateFIRE inputs currentAge monthlyExpenses retirementYears).portfolioAtRetirement
      = accumValue inputs inputs.yearsToRetirement := by
  show ((calculateAccumulation inputs currentAge).getLastD simZero).portfolioValue = _
  rw [List.getLastD_eq_getLast?]
  unfold calculateAccumulation
  rw [List.getLast?_map]
  simp [List.range_succ]

/-- Closed form of the accumulation recurrence: starting savings compound
for `n` years, and the `n - 1` contributions of years `1 .. n-1` (the year-`n`
record is a pre-growth snapshot, so the year-`n` contribution is not yet
included) compound from the year they are added. -/
theorem accumValue_closedForm (inputs : PortfolioInputs) :
    ∀ n : ℕ, 1 ≤ n →
      accumValue inputs n
        = inputs.currentSavings * (1 + inputs.expectedReturn) ^ n
          + inputs.monthlyContribution * 12 *
            (Finset.range (n - 1)).sum (fun t => (1 + inputs.expectedReturn) ^ t) := by
  intro n
  induction n with
  | zero => intro h; omega
  | succ n ih =>
    intro _
    rcases Nat.eq_zero_or_pos n with hn | hn
    · subst hn
      show accumValue inputs 0 + 0 + accumValue inputs 0 * inputs.expectedReturn = _
      show inputs.currentSavings + 0 + inputs.currentSavings * inputs.expectedReturn = _
      simp only [Nat.sub_self, Finset.range_zero, Finset.sum_empty, mul_zero, add_zero, pow_one]
      ring
    · have hrec : accumValue inputs (n + 1)
          = accumValue inputs n + inputs.monthlyContribution * 12
            + accumValue inputs n * inputs.expectedReturn := by
        show accumValue inputs n + (if n = 0 then 0 else inputs.monthlyContribution * 12)
            + accumValue inputs n * inputs.expectedReturn = _
        rw [if_neg (by omega)]
      rw [hrec, ih hn]
      have hsum : (Finset.range (n + 1 - 1)).sum (fun t => (1 + inputs.expectedReturn) ^ t)
          = (Finset.range (n - 1)).sum (fun t => (1 + inputs.expectedReturn) ^ (t + 1)) + 1 := by
        have hn1 : n + 1 - 1 = (n - 1) + 1 := by omega
        rw [hn1, Finset.sum_range_succ']
        simp
      have hpull : (Finset.range (n - 1)).sum (fun t => (1 + inputs.expectedReturn) ^ (t + 1))
          = (Finset.range (n - 1)).sum (fun t => (1 + inputs.expectedReturn) ^ t)
            * (1 + inputs.expectedReturn) := by
        rw [Finset.sum_mul]
        exact Finset.sum_congr rfl (fun t _ => pow_succ _ t)
      rw [hsum, hpull]
      ring

/-- C3: for the spec's end-to-end example inputs, `portfolioAtRetirement`
equals the closed-form deterministic compounding of $500{,}000 at 7%/yr plus
$60{,}000/yr of contributions starting from year 1 over the 10-year horizon
(the year-10 record being the pre-growth retirement snapshot, the
contributions compounding inside it are those of years 1-9). -/
theorem calculateFIRE_example_closedForm :
    (calculateFIRE ⟨500000, 5000, 10, 7/100, 3/100, 1/25⟩ 35 2000 40).portfolioAtRetirement
      = 500000 * ((107:ℚ)/100) ^ 10
        + 60000 * (Finset.range 9).sum (fun t => ((107:ℚ)/100) ^ t) := by
  rw [calculateFIRE_portfolioAtRetirement]
  rw [accumValue_closedForm _ _ (by norm_num)]
  norm_num

/-! ### Claim C8: runway example -/

/-- C8: with portfolio $1{,}000{,}000$, withdrawal rate 0.04 and the fixed
exchange constant 0.74, the annual withdrawal in comparison currency is
exactly $1{,}000{,}000 \cdot 0.04 \cdot 0.74 = 29{,}600$, and the runway
against a $1{,}000/month ($12{,}000/yr) country is `29600 / 12000 ≈ 2.47`
years. -/
theorem runway_example :
    (calculateAffordableBudget 1000000 (1/25)).2 = 1000000 * (1/25) * (74/100) ∧
    (calculateAffordableBudget 1000000 (1/25)).2 = 29600 ∧
    countryRunway 1000000 (1/25) 1000 = 29600 / 12000 ∧
    |countryRunway 1000000 (1/25) 1000 - 247/100| < 1/100 := by
  norm_num [calculateAffordableBudget, countryRunway, abs]

/-! ### CPF engine (cpf.ts) -/

/-- `CPF_RATES` from cpf.ts. -/
structure CPFRates where
  OA : ℚ
  SA : ℚ
  MA : ℚ
  RA : ℚ
  EXTRA_FIRST_60K : ℚ
  EXTRA_55_PLUS_FIRST_30K : ℚ

def CPF_RATES : CPFRates :=
  { OA := 0.025, SA := 0.04, MA := 0.04, RA := 0.04
    EXTRA_FIRST_60K := 0.01, EXTRA_55_PLUS_FIRST_30K := 0.01 }

/-- The per-bracket allocation ratios of `CPF_CONTRIBUTION_RATES`. -/
structure CPFAllocation where
  OA : ℚ
  SA : ℚ
  MA : ℚ

/-- One bracket of `CPF_CONTRIBUTION_RATES`. -/
structure CPFBracket where
  total : ℚ
  employee : ℚ
  employer : ℚ
  allocation : CPFAllocation

/-- `CPF_CONTRIBUTION_RATES` from cpf.ts. -/
structure CPFContributionRates where
  UNDER_55 : CPFBracket
  AGE_55_60 : CPFBracket
  AGE_60_65 : CPFBracket
  AGE_65_70 : CPFBracket

def CPF_CONTRIBUTION_RATES : CPFContributionRates :=
  { UNDER_55 :=
      { total := 0.37, employee := 0.20, employer := 0.17
        allocation := { OA := 0.6217, SA := 0.1622, MA := 0.2162 } }
    AGE_55_60 :=
      { total := 0.295, employee := 0.15, employer := 0.145
        allocation := { OA := 0.4068, SA := 0.2373, MA := 0.3559 } }
    AGE_60_65 :=
      { total := 0.205, employee := 0.095, employer := 0.11
        allocation := { OA := 0.1463, SA := 0.3902, MA := 0.4634 } }
    AGE_65_70 :=
      { total := 0.155, employee := 0.075, employer := 0.08
        allocation := { OA := 0.0645, SA := 0.4516, MA := 0.4839 } } }

/-- The `OA_WAGE_CEILING` entry of `CPF_LIMITS` from cpf.ts (the only limit
the projection code reads). -/
def CPF_LIMITS_OA_WAGE_CEILING : ℚ := 6800

/-- `CPFBalances` from cpf.ts. -/
structure CPFBalances where
  OA : ℚ
  SA : ℚ
  MA : ℚ
  total : ℚ
deriving DecidableEq, Repr

/-- The `{OA, SA, MA, total}` record returned by `calculateCPFContribution`
and `calculateCPFInterest`. -/
structure CPFParts where
  OA : ℚ
  SA : ℚ
  MA : ℚ
  total : ℚ
deriving DecidableEq, Repr

/-- `CPFProjection` from cpf.ts (all balances are `Math.round`ed). -/
structure CPFProjection where
  age : ℤ
  year : ℕ
  OA : ℤ
  SA : ℤ
  MA : ℤ
  RA : ℤ
  total : ℤ
  contributions : ℤ
  interest : ℤ
deriving DecidableEq, Repr

/-- `calculateCPFContribution` from cpf.ts. -/
def calculateCPFContribution (monthlySalary : ℚ) (age : ℤ) : CPFParts :=
  let cappedSalary := jsMin monthlySalary CPF_LIMITS_OA_WAGE_CEILING
  let rates :=
    if age ≤ 55 then CPF_CONTRIBUTION_RATES.UNDER_55
    else if age ≤ 60 then CPF_CONTRIBUTION_RATES.AGE_55_60
    else if age ≤ 65 then CPF_CONTRIBUTION_RATES.AGE_60_65
    else CPF_CONTRIBUTION_RATES.AGE_65_70
  let totalContribution := cappedSalary * rates.total
  { OA := totalContribution * rates.allocation.OA
    SA := totalContribution * rates.allocation.SA
    MA := totalContribution * rates.allocation.MA
    total := totalContribution }

/-- `calculateCPFInterest` from cpf.ts: base rates per sub-account, an extra
1% on the first $60K (OA capped at $20K) split between SA and MA by balance
share (50/50 when both are zero), and for age ≥ 55 a further 1% on the first
$30K computed the same way. -/
def calculateCPFInterest (balances : CPFBalances) (age : ℤ) : CPFParts :=
  let oaInterest := balances.OA * CPF_RATES.OA
  let saInterest := balances.SA * CPF_RATES.SA
  let maInterest := balances.MA * CPF_RATES.MA
  let oaForExtra := jsMin balances.OA 20000
  let remainingFor60K := 60000 - oaForExtra
  let samaForExtra := jsMin (balances.SA + balances.MA) remainingFor60K
  let saRatio : ℚ :=
    if 0 < balances.SA + balances.MA then balances.SA / (balances.SA + balances.MA)
    else 0.5
  let saExtra := samaForExtra * saRatio
  let maExtra := samaForExtra * (1 - saRatio)
  let oaInterest1 := oaInterest + oaForExtra * CPF_RATES.EXTRA_FIRST_60K
  let saInterest1 := saInterest + saExtra * CPF_RATES.EXTRA_FIRST_60K
  let maInterest1 := maInterest + maExtra * CPF_RATES.EXTRA_FIRST_60K
  if 55 ≤ age then
    let oaFor30K := jsMin balances.OA 30000
    let remainingFor30K := 30000 - oaFor30K
    let samaFor30K := jsMin (balances.SA + balances.MA) remainingFor30K
    let saExtra30K := samaFor30K * saRatio
    let maExtra30K := samaFor30K * (1 - saRatio)
    let oaInterest2 := oaInterest1 + oaFor30K * CPF_RATES.EXTRA_55_PLUS_FIRST_30K
    let saInterest2 := saInterest1 + saExtra30K * CPF_RATES.EXTRA_55_PLUS_FIRST_30K
    let maInterest2 := maInterest1 + maExtra30K * CPF_RATES.EXTRA_55_PLUS_FIRST_30K
    { OA := oaInterest2, SA := saInterest2, MA := maInterest2
      total := oaInterest2 + saInterest2 + maInterest2 }
  else
    { OA := oaInterest1, SA := saInterest1, MA := maInterest1
      total := oaInterest1 + saInterest1 + maInterest1 }

/-- The mutable state `(OA, SA, MA, RA)` of the `projectCPF` loop. -/
structure CPFState where
  OA : ℚ
  SA : ℚ
  MA : ℚ
  RA : ℚ
deriving DecidableEq, Repr

/-- The annual contributions of one `projectCPF` iteration: the monthly
contribution times 12 while `age < stopContributionsAtAge`, zero afterwards. -/
def cpfAnnualContributions (monthlySalary : ℚ) (stopContributionsAtAge age : ℤ) :
    CPFParts :=
  if age < stopContributionsAtAge then
    let monthlyContrib := calculateCPFContribution monthlySalary age
    { OA := monthlyContrib.OA * 12, SA := monthlyContrib.SA * 12
      MA := monthlyContrib.MA * 12, total := monthlyContrib.total * 12 }
  else
    { OA := 0, SA := 0, MA := 0, total := 0 }

/-- The age-55 transfer of `projectCPF`: at `age === 55 && year > 0` the
whole SA balance moves to RA and SA is zeroed (before the record is pushed). -/
def cpfTransfer (age : ℤ) (year : ℕ) (st : CPFState) : CPFState :=
  if age = 55 ∧ 0 < year then { OA := st.OA, SA := 0, MA := st.MA, RA := st.SA }
  else st

/-- End-of-iteration growth of `projectCPF`: contributions and interest are
added to OA/SA/MA and, from age 55 on, RA compounds at `CPF_RATES.RA`. -/
def cpfGrow (age : ℤ) (contrib interest : CPFParts) (st : CPFState) : CPFState :=
  { OA := st.OA + contrib.OA + interest.OA
    SA := st.SA + contrib.SA + interest.SA
    MA := st.MA + contrib.MA + interest.MA
    RA := if 55 ≤ age then st.RA + st.RA * CPF_RATES.RA else st.RA }

/-- The loop state of `projectCPF` at the start of iteration `n` (before the
transfer check of that iteration). -/
def cpfStateAt (currentBalances : CPFBalances) (monthlySalary : ℚ)
    (currentAge stopContributionsAtAge : ℤ) : ℕ → CPFState
  | 0 => ⟨currentBalances.OA, currentBalances.SA, currentBalances.MA, 0⟩
  | n + 1 =>
    let st := cpfStateAt currentBalances monthlySalary currentAge stopContributionsAtAge n
    let age := currentAge + n
    let st1 := cpfTransfer age n st
    let contrib := cpfAnnualContributions monthlySalary stopContributionsAtAge age
    let interest := calculateCPFInterest ⟨st1.OA, st1.SA, st1.MA, st1.OA + st1.SA + st1.MA⟩ age
    cpfGrow age contrib interest st1

/-- The record pushed by iteration `year` of `projectCPF`: the balances are
those after that iteration's age-55 transfer check and before that year's
contributions and interest are added, all `Math.round`ed. -/
def cpfRecordAt (currentBalances : CPFBalances) (monthlySalary : ℚ)
    (currentAge stopContributionsAtAge : ℤ) (year : ℕ) : CPFProjection :=
  let st := cpfStateAt currentBalances monthlySalary currentAge stopContributionsAtAge year
  let age := currentAge + year
  let st1 := cpfTransfer age year st
  let contrib := cpfAnnualContributions monthlySalary stopContributionsAtAge age
  let interest := calculateCPFInterest ⟨st1.OA, st1.SA, st1.MA, st1.OA + st1.SA + st1.MA⟩ age
  { age := age
    year := year
    OA := jsRound st1.OA
    SA := jsRound st1.SA
    MA := jsRound st1.MA
    RA := jsRound st1.RA
    total := jsRound (st1.OA + st1.SA + st1.MA + st1.RA)
    contributions := jsRound contrib.total
    interest := jsRound interest.total }

/-- `projectCPF` from cpf.ts: one record per year `0 .. yearsToProject`. -/
def projectCPF (currentBalances : CPFBalances) (monthlySalary : ℚ)
    (currentAge : ℤ) (yearsToProject : ℕ) (stopContributionsAtAge : ℤ) :
    List CPFProjection :=
  (List.range (yearsToProject + 1)).map
    (cpfRecordAt currentBalances monthlySalary currentAge stopContributionsAtAge)

/-! ### Claim C6: bracket allocation ratio sums -/

/-- C6 counterexample: the `UNDER_55` allocation ratios sum to `1.0001`,
which is *not* within `1e-6` of `1.0` (the deviation is exactly `1e-4`). -/
theorem cpf_allocation_under55_not_within_1e6 :
    ¬ |CPF_CONTRIBUTION_RATES.UNDER_55.allocation.OA
        + CPF_CONTRIBUTION_RATES.UNDER_55.allocation.SA
        + CPF_CONTRIBUTION_RATES.UNDER_55.allocation.MA - 1| ≤ 1/1000000 := by
  norm_num [CPF_CONTRIBUTION_RATES, abs]

/-- C6 amended: each of the four brackets' allocation ratios sums to `1.0`
within `1e-4` (inclusive): `UNDER_55` sums to `1.0001` and `AGE_60_65` to
`0.9999` (both off by exactly `1e-4`), while `AGE_55_60` and `AGE_65_70`
sum to exactly `1`. -/
theorem cpf_allocation_sums_within_1e4 :
    (|CPF_CONTRIBUTION_RATES.UNDER_55.allocation.OA
        + CPF_CONTRIBUTION_RATES.UNDER_55.allocation.SA
        + CPF_CONTRIBUTION_RATES.UNDER_55.allocation.MA - 1| ≤ 1/10000) ∧
    (CPF_CONTRIBUTION_RATES.AGE_55_60.allocation.OA
        + CPF_CONTRIBUTION_RATES.AGE_55_60.allocation.SA
        + CPF_CONTRIBUTION_RATES.AGE_55_60.allocation.MA = 1) ∧
    (|CPF_CONTRIBUTION_RATES.AGE_60_65.allocation.OA
        + CPF_CONTRIBUTION_RATES.AGE_60_65.allocation.SA
        + CPF_CONTRIBUTION_RATES.AGE_60_65.allocation.MA - 1| ≤ 1/10000) ∧
    (CPF_CONTRIBUTION_RATES.AGE_65_70.allocation.OA
        + CPF_CONTRIBUTION_RATES.AGE_65_70.allocation.SA
        + CPF_CONTRIBUTION_RATES.AGE_65_70.allocation.MA = 1) := by
  norm_num [CPF_CONTRIBUTION_RATES, abs]

/-! ### Claim C1: the age-55 SA→RA transfer -/

theorem jsMin_nonneg {a b : ℚ} (ha : 0 ≤ a) (hb : 0 ≤ b) : 0 ≤ jsMin a b := by
  unfold jsMin
  split_ifs <;> assumption

theorem jsMin_le_right (a b : ℚ) : jsMin a b ≤ b := by
  unfold jsMin
  split_ifs with h
  · exact le_of_lt h
  · exact le_refl b

theorem jsMin_zero_left {b : ℚ} (hb : 0 ≤ b) : jsMin 0 b = 0 := by
  unfold jsMin
  split_ifs with h
  · rfl
  · linarith [not_lt.mp h]

/-- The per-account contributions are non-negative for a non-negative salary. -/
theorem calculateCPFContribution_nonneg (s : ℚ) (age : ℤ) (hs : 0 ≤ s) :
    0 ≤ (calculateCPFContribution s age).OA ∧
    0 ≤ (calculateCPFContribution s age).SA ∧
    0 ≤ (calculateCPFContribution s age).MA := by
  have hcap : 0 ≤ jsMin s CPF_LIMITS_OA_WAGE_CEILING :=
    jsMin_nonneg hs (by norm_num [CPF_LIMITS_OA_WAGE_CEILING])
  simp only [calculateCPFContribution]
  split_ifs <;>
    exact ⟨mul_nonneg (mul_nonneg hcap (by norm_num [CPF_CONTRIBUTION_RATES]))
        (by norm_num [CPF_CONTRIBUTION_RATES]),
      mul_nonneg (mul_nonneg hcap (by norm_num [CPF_CONTRIBUTION_RATES]))
        (by norm_num [CPF_CONTRIBUTION_RATES]),
      mul_nonneg (mul_nonneg hcap (by norm_num [CPF_CONTRIBUTION_RATES]))
        (by norm_num [CPF_CONTRIBUTION_RATES])⟩

/-- The per-account interest amounts are non-negative on non-negative balances. -/
theorem calculateCPFInterest_nonneg (b : CPFBalances) (age : ℤ)
    (hOA : 0 ≤ b.OA) (hSA : 0 ≤ b.SA) (hMA : 0 ≤ b.MA) :
    0 ≤ (calculateCPFInterest b age).OA ∧
    0 ≤ (calculateCPFInterest b age).SA ∧
    0 ≤ (calculateCPFInterest b age).MA := by
  have hOAex : 0 ≤ jsMin b.OA 20000 := jsMin_nonneg hOA (by norm_num)
  have hOA30 : 0 ≤ jsMin b.OA 30000 := jsMin_nonneg hOA (by norm_num)
  have h60 : 0 ≤ 60000 - jsMin b.OA 20000 := by
    have := jsMin_le_right b.OA 20000
    linarith
  have h30 : 0 ≤ 30000 - jsMin b.OA 30000 := by
    have := jsMin_le_right b.OA 30000
    linarith
  have hsama : 0 ≤ jsMin (b.SA + b.MA) (60000 - jsMin b.OA 20000) :=
    jsMin_nonneg (add_nonneg hSA hMA) h60
  have hsama30 : 0 ≤ jsMin (b.SA + b.MA) (30000 - jsMin b.OA 30000) :=
    jsMin_nonneg (add_nonneg hSA hMA) h30
  have hr0 : 0 ≤ (if 0 < b.SA + b.MA then b.SA / (b.SA + b.MA) else (0.5:ℚ)) := by
    split_ifs with h
    · exact div_nonneg hSA (le_of_lt h)
    · norm_num
  have hr1 : (if 0 < b.SA + b.MA then b.SA / (b.SA + b.MA) else (0.5:ℚ)) ≤ 1 := by
    split_ifs with h
    · exact (div_le_one h).mpr (by linarith)
    · norm_num
  set R := (if 0 < b.SA + b.MA then b.SA / (b.SA + b.MA) else (0.5:ℚ)) with hR
  have k1 : 0 ≤ b.OA * 0.025 := mul_nonneg hOA (by norm_num)
  have k2 : 0 ≤ jsMin b.OA 20000 * 0.01 := mul_nonneg hOAex (by norm_num)
  have k3 : 0 ≤ jsMin b.OA 30000 * 0.01 := mul_nonneg hOA30 (by norm_num)
  have k4 : 0 ≤ b.SA * 0.04 := mul_nonneg hSA (by norm_num)
  have k5 : 0 ≤ jsMin (b.SA + b.MA) (60000 - jsMin b.OA 20000) * R * 0.01 :=
    mul_nonneg (mul_nonneg hsama hr0) (by norm_num)
  have k6 : 0 ≤ jsMin (b.SA + b.MA) (30000 - jsMin b.OA 30000) * R * 0.01 :=
    mul_nonneg (mul_nonneg hsama30 hr0) (by norm_num)
  have k7 : 0 ≤ b.MA * 0.04 := mul_nonneg hMA (by norm_num)
  have k8 : 0 ≤ jsMin (b.SA + b.MA) (60000 - jsMin b.OA 20000) * (1 - R) * 0.01 :=
    mul_nonneg (mul_nonneg hsama (by linarith)) (by norm_num)
  have k9 : 0 ≤ jsMin (b.SA + b.MA) (30000 - jsMin b.OA 30000) * (1 - R) * 0.01 :=
    mul_nonneg (mul_nonneg hsama30 (by linarith)) (by norm_num)
  simp only [calculateCPFInterest, CPF_RATES]
  rw [← hR]
  split_ifs <;> refine ⟨by linarith, by linarith, by linarith⟩

/-- With a zero SA balance (and non-negative MA), the SA interest computed by
`calculateCPFInterest` is exactly zero: the proportional split sends the whole
bonus to MA (or there is nothing to split). -/
theorem calculateCPFInterest_SA_zero (b : CPFBalances) (age : ℤ)
    (hSA : b.SA = 0) (hMA : 0 ≤ b.MA) :
    (calculateCPFInterest b age).SA = 0 := by
  have h60 : (0:ℚ) < 60000 - jsMin b.OA 20000 := by
    have := jsMin_le_right b.OA 20000
    linarith
  have h30 : (0:ℚ) ≤ 30000 - jsMin b.OA 30000 := by
    have := jsMin_le_right b.OA 30000
    linarith
  rcases lt_or_le 0 (b.SA + b.MA) with hpos | hnonpos
  · -- MA > 0: the ratio is SA/(SA+MA) = 0
    have hratio : (if 0 < b.SA + b.MA then b.SA / (b.SA + b.MA) else (0.5:ℚ)) = 0 := by
      rw [if_pos hpos, hSA, zero_div]
    simp only [calculateCPFInterest]
    rw [hratio]
    split_ifs <;> rw [hSA] <;> ring
  · -- SA + MA = 0: there is no balance to receive the bonus
    have hma0 : b.MA = 0 := by linarith
    have hsama : jsMin (b.SA + b.MA) (60000 - jsMin b.OA 20000) = 0 := by
      rw [hSA, hma0, add_zero]
      exact jsMin_zero_left (le_of_lt h60)
    have hsama30 : jsMin (b.SA + b.MA) (30000 - jsMin b.OA 30000) = 0 := by
      rw [hSA, hma0, add_zero]
      exact jsMin_zero_left h30
    simp only [calculateCPFInterest]
    rw [hsama, hsama30]
    split_ifs <;> rw [hSA] <;> ring

/-- Annual contributions are non-negative componentwise, and the SA component
vanishes once `age < stopContributionsAtAge` fails. -/
theorem cpfAnnualContributions_nonneg (s : ℚ) (stop age : ℤ) (hs : 0 ≤ s) :
    0 ≤ (cpfAnnualContributions s stop age).OA ∧
    0 ≤ (cpfAnnualContributions s stop age).SA ∧
    0 ≤ (cpfAnnualContributions s stop age).MA := by
  obtain ⟨h1, h2, h3⟩ := calculateCPFContribution_nonneg s age hs
  unfold cpfAnnualContributions
  split_ifs
  · exact ⟨by positivity, by positivity, by positivity⟩
  · exact ⟨le_refl 0, le_refl 0, le_refl 0⟩

theorem cpfAnnualContributions_stopped (s : ℚ) (stop age : ℤ)
    (h : ¬ age < stop) : cpfAnnualContributions s stop age = ⟨0, 0, 0, 0⟩ := by
  unfold cpfAnnualContributions
  rw [if_neg h]

/-- The projection state stays componentwise non-negative. -/
theorem cpfStateAt_nonneg (b : CPFBalances) (s : ℚ) (c stop : ℤ)
    (hOA : 0 ≤ b.OA) (hSA : 0 ≤ b.SA) (hMA : 0 ≤ b.MA) (hs : 0 ≤ s) :
    ∀ n, 0 ≤ (cpfStateAt b s c stop n).OA ∧ 0 ≤ (cpfStateAt b s c stop n).SA ∧
      0 ≤ (cpfStateAt b s c stop n).MA ∧ 0 ≤ (cpfStateAt b s c stop n).RA := by
  intro n
  induction n with
  | zero => exact ⟨hOA, hSA, hMA, le_refl 0⟩
  | succ n ih =>
    obtain ⟨ih1, ih2, ih3, ih4⟩ := ih
    have htr : 0 ≤ (cpfTransfer (c + n) n (cpfStateAt b s c stop n)).OA ∧
        0 ≤ (cpfTransfer (c + n) n (cpfStateAt b s c stop n)).SA ∧
        0 ≤ (cpfTransfer (c + n) n (cpfStateAt b s c stop n)).MA ∧
        0 ≤ (cpfTransfer (c + n) n (cpfStateAt b s c stop n)).RA := by
      unfold cpfTransfer
      split_ifs
      · exact ⟨ih1, le_refl 0, ih3, ih2⟩
      · exact ⟨ih1, ih2, ih3, ih4⟩
    obtain ⟨ht1, ht2, ht3, ht4⟩ := htr
    obtain ⟨hc1, hc2, hc3⟩ := cpfAnnualContributions_nonneg s stop (c + n) hs
    obtain ⟨hi1, hi2, hi3⟩ := calculateCPFInterest_nonneg
      ⟨(cpfTransfer (c + n) n (cpfStateAt b s c stop n)).OA,
        (cpfTransfer (c + n) n (cpfStateAt b s c stop n)).SA,
        (cpfTransfer (c + n) n (cpfStateAt b s c stop n)).MA,
        (cpfTransfer (c + n) n (cpfStateAt b s c stop n)).OA
          + (cpfTransfer (c + n) n (cpfStateAt b s c stop n)).SA
          + (cpfTransfer (c + n) n (cpfStateAt b s c stop n)).MA⟩
      (c + n) ht1 ht2 ht3
    show 0 ≤ (cpfGrow (c + n) _ _ _).OA ∧ 0 ≤ (cpfGrow (c + n) _ _ _).SA ∧
      0 ≤ (cpfGrow (c + n) _ _ _).MA ∧ 0 ≤ (cpfGrow (c + n) _ _ _).RA
    unfold cpfGrow
    refine ⟨by dsimp only; linarith, by dsimp only; linarith, by dsimp only; linarith, ?_⟩
    dsimp only
    split_ifs
    · norm_num [CPF_RATES]
      linarith
    · exact ht4

/-- One unfolding step of the projection state. -/
theorem cpfStateAt_succ (b : CPFBalances) (s : ℚ) (c stop : ℤ) (n : ℕ) :
    cpfStateAt b s c stop (n + 1)
      = (let stn := cpfStateAt b s c stop n
         let age := c + n
         let st1 := cpfTransfer age n stn
         let contrib := cpfAnnualContributions s stop age
         let interest := calculateCPFInterest
           ⟨st1.OA, st1.SA, st1.MA, st1.OA + st1.SA + st1.MA⟩ age
         cpfGrow age contrib interest st1) := rfl

/-- Elements of `(List.range n).map f`. -/
theorem getElem?_range_map {α : Type} (f : ℕ → α) (n k : ℕ) (hk : k < n) :
    ((List.range n).map f)[k]? = some (f k) := by
  rw [List.getElem?_map, List.getElem?_range hk]
  rfl

theorem jsRound_zero : jsRound 0 = 0 := by norm_num [jsRound]

/-- `projectCPF` lookups below the horizon. -/
theorem projectCPF_getElem (b : CPFBalances) (s : ℚ) (c : ℤ) (n : ℕ) (stop : ℤ)
    (k : ℕ) (hk : k ≤ n) :
    (projectCPF b s c n stop)[k]? = some (cpfRecordAt b s c stop k) := by
  unfold projectCPF
  exact getElem?_range_map _ _ _ (by omega)

/-- C1 amended: for a projection crossing age 55 (non-negative balances and
salary, `stopContributionsAtAge ≤ 55`), the transfer happens *before* the
age-55 record is pushed and that year's interest is computed on the
*post*-transfer balances: the record for age 55 already shows `SA = 0` and
`RA` equal to the (rounded) pre-transfer SA, and the record for age 56 shows
`SA = 0` and `RA` equal to the (rounded) pre-transfer SA grown by one year of
RA interest. -/
theorem projectCPF_age55_transfer (b : CPFBalances) (s : ℚ) (currentAge : ℤ)
    (yearsToProject : ℕ) (stop : ℤ)
    (hOA : 0 ≤ b.OA) (hSA : 0 ≤ b.SA) (hMA : 0 ≤ b.MA) (hs : 0 ≤ s)
    (hage : currentAge < 55) (hstop : stop ≤ 55)
    (hyears : (55 - currentAge).toNat + 1 ≤ yearsToProject) :
    ∀ p q : CPFProjection,
      (projectCPF b s currentAge yearsToProject stop)[(55 - currentAge).toNat]? = some p →
      (projectCPF b s currentAge yearsToProject stop)[(55 - currentAge).toNat + 1]? = some q →
      p.SA = 0 ∧
      p.RA = jsRound (cpfStateAt b s currentAge stop (55 - currentAge).toNat).SA ∧
      q.SA = 0 ∧
      q.RA = jsRound
        ((cpfStateAt b s currentAge stop (55 - currentAge).toNat).SA
          + (cpfStateAt b s currentAge stop (55 - currentAge).toNat).SA * CPF_RATES.RA) := by
  intro p q hp hq
  have hkz : (((55 - currentAge).toNat : ℕ) : ℤ) = 55 - currentAge :=
    Int.toNat_of_nonneg (by omega)
  have hkpos : 0 < (55 - currentAge).toNat := by omega
  rw [projectCPF_getElem b s currentAge yearsToProject stop _ (by omega)] at hp
  rw [projectCPF_getElem b s currentAge yearsToProject stop _ (by omega)] at hq
  obtain rfl := Option.some.inj hp
  obtain rfl := Option.some.inj hq
  have hnn := cpfStateAt_nonneg b s currentAge stop hOA hSA hMA hs (55 - currentAge).toNat
  have htr : cpfTransfer (currentAge + ((55 - currentAge).toNat : ℤ)) (55 - currentAge).toNat
      (cpfStateAt b s currentAge stop (55 - currentAge).toNat)
      = ⟨(cpfStateAt b s currentAge stop (55 - currentAge).toNat).OA, 0,
         (cpfStateAt b s currentAge stop (55 - currentAge).toNat).MA,
         (cpfStateAt b s currentAge stop (55 - currentAge).toNat).SA⟩ := by
    unfold cpfTransfer
    rw [if_pos ⟨by omega, hkpos⟩]
  have hS1 : (cpfStateAt b s currentAge stop ((55 - currentAge).toNat + 1)).SA = 0 := by
    simp only [cpfStateAt_succ, htr]
    simp only [cpfGrow]
    rw [cpfAnnualContributions_stopped s stop _ (by omega)]
    rw [calculateCPFInterest_SA_zero _ _ rfl hnn.2.2.1]
    norm_num
  have hR1 : (cpfStateAt b s currentAge stop ((55 - currentAge).toNat + 1)).RA
      = (cpfStateAt b s currentAge stop (55 - currentAge).toNat).SA
        + (cpfStateAt b s currentAge stop (55 - currentAge).toNat).SA * CPF_RATES.RA := by
    simp only [cpfStateAt_succ, htr]
    simp only [cpfGrow]
    rw [if_pos (by omega : (55:ℤ) ≤ currentAge + ((55 - currentAge).toNat : ℤ))]
  have htr2 : cpfTransfer (currentAge + (((55 - currentAge).toNat + 1 : ℕ) : ℤ))
      ((55 - currentAge).toNat + 1)
      (cpfStateAt b s currentAge stop ((55 - currentAge).toNat + 1))
      = cpfStateAt b s currentAge stop ((55 - currentAge).toNat + 1) := by
    unfold cpfTransfer
    rw [if_neg]
    rintro ⟨h55, -⟩
    omega
  refine ⟨?_, ?_, ?_, ?_⟩
  · show jsRound (cpfTransfer (currentAge + ((55 - currentAge).toNat : ℤ))
      (55 - currentAge).toNat (cpfStateAt b s currentAge stop (55 - currentAge).toNat)).SA = 0
    rw [htr]
    exact jsRound_zero
  · show jsRound (cpfTransfer (currentAge + ((55 - currentAge).toNat : ℤ))
      (55 - currentAge).toNat (cpfStateAt b s currentAge stop (55 - currentAge).toNat)).RA = _
    rw [htr]
  · show jsRound (cpfTransfer (currentAge + (((55 - currentAge).toNat + 1 : ℕ) : ℤ))
      ((55 - currentAge).toNat + 1)
      (cpfStateAt b s currentAge stop ((55 - currentAge).toNat + 1))).SA = 0
    rw [htr2, hS1]
    exact jsRound_zero
  · show jsRound (cpfTransfer (currentAge + (((55 - currentAge).toNat + 1 : ℕ) : ℤ))
      ((55 - currentAge).toNat + 1)
      (cpfStateAt b s currentAge stop ((55 - currentAge).toNat + 1))).RA = _
    rw [htr2, hR1]

/-- C1 counterexample: for `projectCPF {OA:0, SA:1000, MA:0} 0` at age 54 over
2 years (stop at 55), the record for age 55 already shows the transfer
(`SA = 0`, `RA = 1050`, the pre-transfer SA), and the record for age 56 shows
`RA = 1092 = 1050·1.04` — not the pre-transfer SA (`1050`) and not the SA
shown at the age-55 record (`0`), refuting the claim that the transfer
happens after the record is pushed and that `RA` at 56 equals `SA` at 55. -/
theorem projectCPF_age55_claim_counterexample :
    ((projectCPF ⟨0, 1000, 0, 1000⟩ 0 54 2 55)[1]?).map (fun p => (p.SA, p.RA))
        = some (0, 1050) ∧
    ((projectCPF ⟨0, 1000, 0, 1000⟩ 0 54 2 55)[2]?).map (fun p => (p.SA, p.RA))
        = some (0, 1092) ∧
    (cpfStateAt ⟨0, 1000, 0, 1000⟩ 0 54 55 1).SA = 1050 ∧
    (1092 : ℤ) ≠ 0 ∧ (1092 : ℤ) ≠ 1050 := by
  have h0 : cpfStateAt ⟨0, 1000, 0, 1000⟩ 0 54 55 0 = ⟨0, 1000, 0, 0⟩ := rfl
  have h1 : cpfStateAt ⟨0, 1000, 0, 1000⟩ 0 54 55 1 = ⟨0, 1050, 0, 0⟩ := by
    have h := cpfStateAt_succ ⟨0, 1000, 0, 1000⟩ 0 54 55 0
    rw [h0] at h
    norm_num [cpfTransfer, cpfGrow, cpfAnnualContributions, calculateCPFInterest,
      calculateCPFContribution, CPF_RATES, CPF_CONTRIBUTION_RATES,
      CPF_LIMITS_OA_WAGE_CEILING, jsMin] at h
    exact h
  have h2 : cpfStateAt ⟨0, 1000, 0, 1000⟩ 0 54 55 2 = ⟨0, 0, 0, 1092⟩ := by
    have h := cpfStateAt_succ ⟨0, 1000, 0, 1000⟩ 0 54 55 1
    rw [h1] at h
    norm_num [cpfTransfer, cpfGrow, cpfAnnualContributions, calculateCPFInterest,
      calculateCPFContribution, CPF_RATES, CPF_CONTRIBUTION_RATES,
      CPF_LIMITS_OA_WAGE_CEILING, jsMin] at h
    exact h
  rw [projectCPF_getElem _ _ _ _ _ 1 (by omega), projectCPF_getElem _ _ _ _ _ 2 (by omega)]
  refine ⟨?_, ?_, by rw [h1], by norm_num, by norm_num⟩
  · norm_num [cpfRecordAt, h1, cpfTransfer, jsRound]
  · norm_num [cpfRecordAt, h2, cpfTransfer, jsRound]

/-- Witness for the C1 amended theorem at the concrete crossing input
`projectCPF {OA:0, SA:1000, MA:0} 0 54 2 55` (the age-55 iteration is
year 1). -/
theorem projectCPF_age55_transfer_witness :
    (cpfRecordAt ⟨0, 1000, 0, 1000⟩ 0 54 55 1).SA = 0 ∧
    (cpfRecordAt ⟨0, 1000, 0, 1000⟩ 0 54 55 1).RA
      = jsRound (cpfStateAt ⟨0, 1000, 0, 1000⟩ 0 54 55 1).SA ∧
    (cpfRecordAt ⟨0, 1000, 0, 1000⟩ 0 54 55 2).SA = 0 ∧
    (cpfRecordAt ⟨0, 1000, 0, 1000⟩ 0 54 55 2).RA
      = jsRound ((cpfStateAt ⟨0, 1000, 0, 1000⟩ 0 54 55 1).SA
          + (cpfStateAt ⟨0, 1000, 0, 1000⟩ 0 54 55 1).SA * CPF_RATES.RA) := by
  have hk : ((55:ℤ) - 54).toNat = 1 := by decide
  have h := projectCPF_age55_transfer ⟨0, 1000, 0, 1000⟩ 0 54 2 55
    (by norm_num) (by norm_num) (by norm_num) (le_refl 0)
    (by norm_num) (by norm_num) (by decide)
  rw [hk] at h
  exact h _ _ (projectCPF_getElem _ _ _ _ _ 1 (by omega))
    (projectCPF_getElem _ _ _ _ _ 2 (by omega))

/-! ### Monte Carlo engine (calculator.ts `runMonteCarloSimulation`)

`Math.random()` is modelled by an injectable stream `rng : ℕ → ℚ` of draws,
consumed sequentially: trial `sim` uses draws
`sim * totalYears, …, sim * totalYears + totalYears - 1`.  The JS
`sort((a, b) => a - b)` on finite number arrays produces the unique
ascending reordering, modelled by `List.insertionSort (· ≤ ·)`. -/

/-- The fixed `volatility = 0.15` constant. -/
def volatility : ℚ := 0.15

/-- `MonteCarloResult` from calculator.ts. -/
structure MonteCarloResult where
  percentile5 : List ℚ
  percentile25 : List ℚ
  percentile50 : List ℚ
  percentile75 : List ℚ
  percentile95 : List ℚ
  successRate : ℚ
  medianEndValue : ℚ
  years : List ℤ
deriving DecidableEq, Repr

/-- Accumulation phase of one trial: returns the final portfolio and the
pushed yearly values; `base + year` indexes the random stream. -/
def mcAccum (rng : ℕ → ℚ) (inputs : PortfolioInputs) (base : ℕ) :
    ℕ → ℕ → ℚ → ℚ × List ℚ
  | _, 0, portfolio => (portfolio, [])
  | year, n + 1, portfolio =>
    let randomReturn := inputs.expectedReturn + (rng (base + year) - 0.5) * 2 * volatility
    let portfolio1 := portfolio * (1 + randomReturn) + inputs.monthlyContribution * 12
    let rest := mcAccum rng inputs base (year + 1) n portfolio1
    (rest.1, portfolio1 :: rest.2)

/-- Retirement phase of one trial: pushes `max(0, portfolio)` each year (the
clamp does not feed back into the running portfolio). -/
def mcDraw (rng : ℕ → ℚ) (inputs : PortfolioInputs) (base : ℕ) :
    ℕ → ℕ → ℚ → ℚ → List ℚ
  | _, 0, _, _ => []
  | year, n + 1, portfolio, withdrawal =>
    let randomReturn :=
      (inputs.expectedReturn - 0.01) + (rng (base + year) - 0.5) * 2 * volatility
    let portfolio1 := portfolio * (1 + randomReturn) - withdrawal
    let withdrawal1 := withdrawal * (1 + inputs.inflationRate)
    jsMax 0 portfolio1 :: mcDraw rng inputs base (year + 1) n portfolio1 withdrawal1

/-- One Monte Carlo trial: accumulation then drawdown, with the withdrawal
seeded at `portfolio * withdrawalRate`. -/
def mcTrial (rng : ℕ → ℚ) (inputs : PortfolioInputs) (retirementYears : ℕ)
    (sim : ℕ) : List ℚ :=
  let totalYears := inputs.yearsToRetirement + retirementYears
  let base := sim * totalYears
  let accum := mcAccum rng inputs base 0 inputs.yearsToRetirement inputs.currentSavings
  let withdrawal := accum.1 * inputs.withdrawalRate
  accum.2 ++ mcDraw rng inputs (base + inputs.yearsToRetirement) 0 retirementYears
    accum.1 withdrawal

/-- `allResults`: the matrix of per-trial yearly values. -/
def mcAllResults (rng : ℕ → ℚ) (inputs : PortfolioInputs)
    (retirementYears simulations : ℕ) : List (List ℚ) :=
  (List.range simulations).map (mcTrial rng inputs retirementYears)

/-- The nearest-rank index `Math.floor(simulations * p)` used for every
percentile lookup. -/
def percentileIndex (simulations : ℕ) (p : ℚ) : ℕ :=
  (⌊(simulations : ℚ) * p⌋).toNat

/-- `valuesAtYear`: the values of all trials at one year offset, sorted
ascending. -/
def mcValuesAtYear (rng : ℕ → ℚ) (inputs : PortfolioInputs)
    (retirementYears simulations year : ℕ) : List ℚ :=
  List.insertionSort (· ≤ ·)
    ((mcAllResults rng inputs retirementYears simulations).map fun r => r.getD year 0)

/-- `endValues`: the final value of every trial, sorted ascending. -/
def mcEndValues (rng : ℕ → ℚ) (inputs : PortfolioInputs)
    (retirementYears simulations : ℕ) : List ℚ :=
  List.insertionSort (· ≤ ·)
    ((mcAllResults rng inputs retirementYears simulations).map fun r => r.getLastD 0)

/-- `runMonteCarloSimulation` from calculator.ts. -/
def runMonteCarloSimulation (rng : ℕ → ℚ) (inputs : PortfolioInputs)
    (currentAge : ℤ) (monthlyExpenses : ℚ) (simulations retirementYears : ℕ) :
    MonteCarloResult :=
  let totalYears := inputs.yearsToRetirement + retirementYears
  let pct (p : ℚ) : List ℚ :=
    (List.range totalYears).map fun year =>
      (mcValuesAtYear rng inputs retirementYears simulations year).getD
        (percentileIndex simulations p) 0
  { percentile5 := pct 0.05
    percentile25 := pct 0.25
    percentile50 := pct 0.50
    percentile75 := pct 0.75
    percentile95 := pct 0.95
    successRate :=
      (((mcAllResults rng inputs retirementYears simulations).filter
          fun r => decide (0 < r.getLastD 0)).length : ℚ) / simulations
    medianEndValue :=
      (mcEndValues rng inputs retirementYears simulations).getD
        (percentileIndex simulations 0.5) 0
    years := (List.range totalYears).map fun year => currentAge + year + 1 }

/-! ### Claims C4 and C10: percentile lookups -/

theorem mcValuesAtYear_length (rng : ℕ → ℚ) (inputs : PortfolioInputs)
    (retirementYears simulations year : ℕ) :
    (mcValuesAtYear rng inputs retirementYears simulations year).length = simulations := by
  unfold mcValuesAtYear mcAllResults
  rw [List.length_insertionSort, List.length_map, List.length_map, List.length_range]

theorem mcEndValues_length (rng : ℕ → ℚ) (inputs : PortfolioInputs)
    (retirementYears simulations : ℕ) :
    (mcEndValues rng inputs retirementYears simulations).length = simulations := by
  unfold mcEndValues mcAllResults
  rw [List.length_insertionSort, List.length_map, List.length_map, List.length_range]

/-- The nearest-rank index is strictly below the trial count whenever
`p < 1` and at least one trial ran. -/
theorem percentileIndex_lt (simulations : ℕ) (p : ℚ) (h1 : 1 ≤ simulations)
    (hp : p < 1) : percentileIndex simulations p < simulations := by
  unfold percentileIndex
  have hpos : (0:ℚ) < (simulations:ℚ) := by
    have : (1:ℚ) ≤ (simulations:ℚ) := by exact_mod_cast h1
    linarith
  have h2 : ⌊(simulations:ℚ) * p⌋ < (simulations:ℤ) := by
    apply Int.floor_lt.mpr
    push_cast
    calc (simulations:ℚ) * p < (simulations:ℚ) * 1 := by
          exact mul_lt_mul_of_pos_left hp hpos
      _ = (simulations:ℚ) := mul_one _
  omega

/-- The nearest-rank index is monotone in the percentile. -/
theorem percentileIndex_mono (simulations : ℕ) {p q : ℚ} (h : p ≤ q) :
    percentileIndex simulations p ≤ percentileIndex simulations q := by
  unfold percentileIndex
  have := Int.floor_le_floor
    (mul_le_mul_of_nonneg_left h (by positivity : (0:ℚ) ≤ (simulations:ℚ)))
  omega

/-- Converse of `getElem?_range_map`. -/
theorem getElem?_range_map_inv {α : Type} (f : ℕ → α) (n k : ℕ) (r : α)
    (h : ((List.range n).map f)[k]? = some r) : k < n ∧ r = f k := by
  by_cases hk : k < n
  · rw [getElem?_range_map f n k hk] at h
    exact ⟨hk, (Option.some.inj h).symm⟩
  · have hnone : ((List.range n).map f)[k]? = none :=
      List.getElem?_eq_none (by simpa using Nat.le_of_not_lt hk)
    rw [hnone] at h
    cases h

/-- `getD` is monotone in the index on a sorted list (within bounds). -/
theorem sorted_getD_mono {l : List ℚ} (hs : List.Sorted (· ≤ ·) l) {i j : ℕ}
    (hij : i ≤ j) (hj : j < l.length) : l.getD i 0 ≤ l.getD j 0 := by
  have hi : i < l.length := lt_of_le_of_lt hij hj
  rw [List.getD_eq_getElem l 0 hi, List.getD_eq_getElem l 0 hj]
  exact List.Sorted.rel_get_of_le hs (a := ⟨i, hi⟩) (b := ⟨j, hj⟩) hij

/-- C10: for `simulations ≥ 1`, every nearest-rank index
`floor(simulations * p)` for the five percentiles (and the median lookup)
is strictly below the length (`= simulations`) of the sorted arrays it
indexes, so every lookup in `runMonteCarloSimulation` is in bounds; for
`simulations = 0` the arrays are empty while the index is 0, so the
in-bounds guarantee fails. -/
theorem runMonteCarlo_percentileIndex_inBounds (rng : ℕ → ℚ)
    (inputs : PortfolioInputs) (retirementYears simulations year : ℕ)
    (h : 1 ≤ simulations) :
    (mcValuesAtYear rng inputs retirementYears simulations year).length = simulations ∧
    (mcEndValues rng inputs retirementYears simulations).length = simulations ∧
    percentileIndex simulations 0.05 < simulations ∧
    percentileIndex simulations 0.25 < simulations ∧
    percentileIndex simulations 0.5 < simulations ∧
    percentileIndex simulations 0.75 < simulations ∧
    percentileIndex simulations 0.95 < simulations ∧
    (mcValuesAtYear rng inputs retirementYears 0 year).length = 0 ∧
    percentileIndex 0 0.5 = 0 := by
  refine ⟨mcValuesAtYear_length _ _ _ _ _, mcEndValues_length _ _ _ _,
    percentileIndex_lt _ _ h (by norm_num), percentileIndex_lt _ _ h (by norm_num),
    percentileIndex_lt _ _ h (by norm_num), percentileIndex_lt _ _ h (by norm_num),
    percentileIndex_lt _ _ h (by norm_num), mcValuesAtYear_length _ _ _ _ _, ?_⟩
  norm_num [percentileIndex]

/-- Witness for C10 at `simulations = 7`. -/
theorem runMonteCarlo_percentileIndex_inBounds_witness :
    (mcValuesAtYear (fun _ => 1/2) ⟨1000, 0, 0, 1/10, 0, 1/25⟩ 1 7 0).length = 7 ∧
    percentileIndex 7 0.95 < 7 ∧ percentileIndex 0 0.5 = 0 := by
  have h := runMonteCarlo_percentileIndex_inBounds (fun _ => 1/2)
    ⟨1000, 0, 0, 1/10, 0, 1/25⟩ 1 7 0 (by norm_num)
  exact ⟨h.1, h.2.2.2.2.2.2.1, h.2.2.2.2.2.2.2.2⟩

/-- C4: for `simulations ≥ 1` each percentile array entry of
`runMonteCarloSimulation` is the nearest-rank order statistic of that year's
sorted values at index `floor(simulations * p)`, and consequently the five
percentiles are ordered at every year offset. -/
theorem runMonteCarlo_percentile_order (rng : ℕ → ℚ) (inputs : PortfolioInputs)
    (currentAge : ℤ) (monthlyExpenses : ℚ) (simulations retirementYears : ℕ)
    (h : 1 ≤ simulations) :
    ∀ (year : ℕ) (a b c d e : ℚ),
      (runMonteCarloSimulation rng inputs currentAge monthlyExpenses simulations
        retirementYears).percentile5[year]? = some a →
      (runMonteCarloSimulation rng inputs currentAge monthlyExpenses simulations
        retirementYears).percentile25[year]? = some b →
      (runMonteCarloSimulation rng inputs currentAge monthlyExpenses simulations
        retirementYears).percentile50[year]? = some c →
      (runMonteCarloSimulation rng inputs currentAge monthlyExpenses simulations
        retirementYears).percentile75[year]? = some d →
      (runMonteCarloSimulation rng inputs currentAge monthlyExpenses simulations
        retirementYears).percentile95[year]? = some e →
      (a = (mcValuesAtYear rng inputs retirementYears simulations year).getD
          (percentileIndex simulations 0.05) 0 ∧
       b = (mcValuesAtYear rng inputs retirementYears simulations year).getD
          (percentileIndex simulations 0.25) 0 ∧
       c = (mcValuesAtYear rng inputs retirementYears simulations year).getD
          (percentileIndex simulations 0.50) 0 ∧
       d = (mcValuesAtYear rng inputs retirementYears simulations year).getD
          (percentileIndex simulations 0.75) 0 ∧
       e = (mcValuesAtYear rng inputs retirementYears simulations year).getD
          (percentileIndex simulations 0.95) 0) ∧
      (a ≤ b ∧ b ≤ c ∧ c ≤ d ∧ d ≤ e) := by
  intro year a b c d e ha hb hc hd he
  simp only [runMonteCarloSimulation] at ha hb hc hd he
  obtain ⟨hy, rfl⟩ := getElem?_range_map_inv _ _ _ _ ha
  obtain ⟨-, rfl⟩ := getElem?_range_map_inv _ _ _ _ hb
  obtain ⟨-, rfl⟩ := getElem?_range_map_inv _ _ _ _ hc
  obtain ⟨-, rfl⟩ := getElem?_range_map_inv _ _ _ _ hd
  obtain ⟨-, rfl⟩ := getElem?_range_map_inv _ _ _ _ he
  have hsorted : List.Sorted (· ≤ ·)
      (mcValuesAtYear rng inputs retirementYears simulations year) :=
    List.sorted_insertionSort (· ≤ ·) _
  have hlen := mcValuesAtYear_length rng inputs retirementYears simulations year
  refine ⟨⟨rfl, rfl, rfl, rfl, rfl⟩, ?_, ?_, ?_, ?_⟩
  · exact sorted_getD_mono hsorted (percentileIndex_mono _ (by norm_num))
      (by rw [hlen]; exact percentileIndex_lt _ _ h (by norm_num))
  · exact sorted_getD_mono hsorted (percentileIndex_mono _ (by norm_num))
      (by rw [hlen]; exact percentileIndex_lt _ _ h (by norm_num))
  · exact sorted_getD_mono hsorted (percentileIndex_mono _ (by norm_num))
      (by rw [hlen]; exact percentileIndex_lt _ _ h (by norm_num))
  · exact sorted_getD_mono hsorted (percentileIndex_mono _ (by norm_num))
      (by rw [hlen]; exact percentileIndex_lt _ _ h (by norm_num))

/-- Witness for C4: one trial, zero accumulation years, one retirement year,
constant random stream `1/2` (i.e. zero noise); the single trial value at
year 0 is `1050` and all five percentiles agree. -/
theorem runMonteCarlo_percentile_order_witness :
    (1050:ℚ) = (mcValuesAtYear (fun _ => 1/2) ⟨1000, 0, 0, 1/10, 0, 1/25⟩ 1 1 0).getD
        (percentileIndex 1 0.05) 0 ∧
    (1050:ℚ) = (mcValuesAtYear (fun _ => 1/2) ⟨1000, 0, 0, 1/10, 0, 1/25⟩ 1 1 0).getD
        (percentileIndex 1 0.95) 0 ∧
    (1050:ℚ) ≤ 1050 := by
  have h5 : (runMonteCarloSimulation (fun _ => 1/2) ⟨1000, 0, 0, 1/10, 0, 1/25⟩
      30 0 1 1).percentile5[0]? = some 1050 := by
    norm_num [runMonteCarloSimulation, mcValuesAtYear, mcAllResults, mcTrial, mcAccum,
      mcDraw, percentileIndex, volatility, jsMax, List.insertionSort, List.orderedInsert]
  have h25 : (runMonteCarloSimulation (fun _ => 1/2) ⟨1000, 0, 0, 1/10, 0, 1/25⟩
      30 0 1 1).percentile25[0]? = some 1050 := by
    norm_num [runMonteCarloSimulation, mcValuesAtYear, mcAllResults, mcTrial, mcAccum,
      mcDraw, percentileIndex, volatility, jsMax, List.insertionSort, List.orderedInsert]
  have h50 : (runMonteCarloSimulation (fun _ => 1/2) ⟨1000, 0, 0, 1/10, 0, 1/25⟩
      30 0 1 1).percentile50[0]? = some 1050 := by
    norm_num [runMonteCarloSimulation, mcValuesAtYear, mcAllResults, mcTrial, mcAccum,
      mcDraw, percentileIndex, volatility, jsMax, List.insertionSort, List.orderedInsert]
  have h75 : (runMonteCarloSimulation (fun _ => 1/2) ⟨1000, 0, 0, 1/10, 0, 1/25⟩
      30 0 1 1).percentile75[0]? = some 1050 := by
    norm_num [runMonteCarloSimulation, mcValuesAtYear, mcAllResults, mcTrial, mcAccum,
      mcDraw, percentileIndex, volatility, jsMax, List.insertionSort, List.orderedInsert]
  have h95 : (runMonteCarloSimulation (fun _ => 1/2) ⟨1000, 0, 0, 1/10, 0, 1/25⟩
      30 0 1 1).percentile95[0]? = some 1050 := by
    norm_num [runMonteCarloSimulation, mcValuesAtYear, mcAllResults, mcTrial, mcAccum,
      mcDraw, percentileIndex, volatility, jsMax, List.insertionSort, List.orderedInsert]
  have h := runMonteCarlo_percentile_order (fun _ => 1/2) ⟨1000, 0, 0, 1/10, 0, 1/25⟩
    30 0 1 1 (by norm_num) 0 1050 1050 1050 1050 1050 h5 h25 h50 h75 h95
  exact ⟨h.1.1, h.1.2.2.2.2, h.2.1⟩

/-! ### Historical backtest engine (cpf.ts `runHistoricalBacktest`) -/

/-- `HISTORICAL_RETURNS` from cpf.ts: S&P 500 annual total returns, 1928-2023 (96 entries). -/
def HISTORICAL_RETURNS : List ℚ :=
  [
    0.4381, -0.0830, -0.2512, -0.4384, -0.0864, 0.4998, -0.0119, 0.4674,
    0.3194, -0.3534, 0.2928, -0.0110, -0.1067, -0.1277, 0.1917, 0.2506,
    0.1903, 0.3582, -0.0843, 0.0520, 0.0570, 0.1830, 0.3081, 0.2368,
    0.1815, -0.0121, 0.5256, 0.3260, 0.0744, -0.1046, 0.4372, 0.1206,
    0.0034, 0.2664, -0.0881, 0.2261, 0.1642, 0.1240, -0.0997, 0.2380,
    0.1081, -0.0824, 0.0356, 0.1422, 0.1876, -0.1431, -0.2590, 0.3700,
    0.2383, -0.0698, 0.0651, 0.1852, 0.3174, -0.0470, 0.2042, 0.2234,
    0.0615, 0.3124, 0.1849, 0.0581, 0.1654, 0.3148, -0.0306, 0.3023,
    0.0749, 0.0997, 0.0133, 0.3720, 0.2268, 0.3310, 0.2834, 0.2089,
    -0.0903, -0.1185, -0.2197, 0.2836, 0.1074, 0.0483, 0.1561, 0.0548,
    -0.3655, 0.2594, 0.1482, 0.0210, 0.1589, 0.3215, 0.1352, 0.0138,
    0.1177, 0.2161, -0.0423, 0.3121, 0.1840, 0.2847, -0.1811, 0.2606]

/-- `HISTORICAL_INFLATION` from cpf.ts: US annual inflation, 1928-2023 (96 entries). -/
def HISTORICAL_INFLATION : List ℚ :=
  [
    -0.0116, 0.0058, -0.0640, -0.0932, -0.1027, 0.0076, 0.0199, 0.0299,
    0.0121, 0.0241, -0.0178, 0.0000, 0.0096, 0.0993, 0.0929, 0.0316,
    0.0211, 0.0225, 0.1802, 0.0888, 0.0271, -0.0180, 0.0579, 0.0587,
    0.0088, 0.0062, -0.0074, 0.0037, 0.0286, 0.0302, 0.0176, 0.0150,
    0.0148, 0.0067, 0.0122, 0.0165, 0.0097, 0.0192, 0.0335, 0.0304,
    0.0472, 0.0611, 0.0549, 0.0336, 0.0341, 0.0880, 0.1220, 0.0701,
    0.0481, 0.0677, 0.0903, 0.1331, 0.1240, 0.0894, 0.0387, 0.0380,
    0.0395, 0.0377, 0.0113, 0.0441, 0.0442, 0.0465, 0.0612, 0.0306,
    0.0290, 0.0275, 0.0267, 0.0254, 0.0332, 0.0170, 0.0161, 0.0268,
    0.0339, 0.0155, 0.0238, 0.0188, 0.0326, 0.0342, 0.0254, 0.0408,
    0.0009, 0.0272, 0.0150, 0.0296, 0.0174, 0.0150, 0.0076, 0.0073,
    0.0207, 0.0211, 0.0191, 0.0231, 0.0123, 0.0700, 0.0650, 0.0340]

/-- `HistoricalSequence` from cpf.ts. -/
structure HistoricalSequence where
  startYear : ℤ
  endYear : ℤ
  finalValue : ℚ
  lowestValue : ℚ
  lowestYear : ℤ
  survived : Bool
  yearsDepleted : Option ℕ
  realReturns : List ℚ
deriving DecidableEq, Repr

/-- `HistoricalBacktestResult` from cpf.ts. -/
structure HistoricalBacktestResult where
  sequences : List HistoricalSequence
  successRate : ℚ
  worstSequence : HistoricalSequence
  bestSequence : HistoricalSequence
  medianFinalValue : ℚ
  averageFinalValue : ℚ
  percentSurvived30Years : ℚ
deriving DecidableEq, Repr

/-- The placeholder value a JS out-of-bounds array read (`undefined`) would
produce; the backtest never reads out of bounds for valid start indices. -/
def histSeqZero : HistoricalSequence :=
  ⟨0, 0, 0, 0, 0, false, none, []⟩

/-- The per-sequence loop state of `runHistoricalBacktest`. -/
structure HistState where
  portfolio : ℚ
  lowestValue : ℚ
  lowestYear : ℤ
  yearsDepleted : Option ℕ
  realReturns : List ℚ
  withdrawal : ℚ
deriving DecidableEq, Repr

/-- One accumulation year of a backtest sequence (loop body of the first
inner loop of `runHistoricalBacktest`). -/
def histAccumStep (inputs : PortfolioInputs) (startIdx year : ℕ)
    (s : HistState) : HistState :=
  let returnIdx := startIdx + year
  let nominalReturn := HISTORICAL_RETURNS.getD returnIdx 0
  let inflation := HISTORICAL_INFLATION.getD returnIdx 0
  let realReturn := (1 + nominalReturn) / (1 + inflation) - 1
  let portfolio1 := s.portfolio * (1 + nominalReturn) + inputs.monthlyContribution * 12
  { portfolio := portfolio1
    lowestValue := if portfolio1 < s.lowestValue then portfolio1 else s.lowestValue
    lowestYear := if portfolio1 < s.lowestValue then 1928 + startIdx + year else s.lowestYear
    yearsDepleted := s.yearsDepleted
    realReturns := s.realReturns ++ [realReturn]
    withdrawal := s.withdrawal }

/-- One retirement year of a backtest sequence (loop body of the second
inner loop).  `returnIdx >= HISTORICAL_RETURNS.length` triggers a `break`
in the source; since `returnIdx` grows with `year`, skipping this and every
later iteration is equivalent. -/
def histDrawStep (inputs : PortfolioInputs) (startIdx year : ℕ)
    (s : HistState) : HistState :=
  let returnIdx := startIdx + inputs.yearsToRetirement + year
  if HISTORICAL_RETURNS.length ≤ returnIdx then s
  else
    let nominalReturn := HISTORICAL_RETURNS.getD returnIdx 0
    let inflation := HISTORICAL_INFLATION.getD returnIdx 0
    let realReturn := (1 + nominalReturn) / (1 + inflation) - 1
    let portfolio1 := s.portfolio * (1 + nominalReturn) - s.withdrawal
    let withdrawal1 := s.withdrawal * (1 + inflation)
    let lowUpd := portfolio1 < s.lowestValue ∧ 0 < portfolio1
    let s1 : HistState :=
      { portfolio := portfolio1
        lowestValue := if lowUpd then portfolio1 else s.lowestValue
        lowestYear := if lowUpd then 1928 + startIdx + inputs.yearsToRetirement + year
          else s.lowestYear
        yearsDepleted := s.yearsDepleted
        realReturns := s.realReturns ++ [realReturn]
        withdrawal := withdrawal1 }
    if portfolio1 ≤ 0 ∧ s.yearsDepleted = none then
      { s1 with yearsDepleted := some year, portfolio := 0 }
    else s1

/-- The sequence state after the whole accumulation phase. -/
def histAfterAccum (inputs : PortfolioInputs) (startIdx : ℕ) : ℕ → HistState
  | 0 =>
    { portfolio := inputs.currentSavings
      lowestValue := inputs.currentSavings
      lowestYear := 1928 + startIdx
      yearsDepleted := none
      realReturns := []
      withdrawal := 0 }
  | n + 1 => histAccumStep inputs startIdx n (histAfterAccum inputs startIdx n)

/-- The state entering the retirement loop: the withdrawal is seeded at
`portfolio * withdrawalRate`. -/
def histStartDraw (inputs : PortfolioInputs) (startIdx : ℕ) : HistState :=
  let s := histAfterAccum inputs startIdx inputs.yearsToRetirement
  { s with withdrawal := s.portfolio * inputs.withdrawalRate }

/-- The sequence state after `n` retirement years. -/
def histAfterDraw (inputs : PortfolioInputs) (startIdx : ℕ) : ℕ → HistState
  | 0 => histStartDraw inputs startIdx
  | n + 1 => histDrawStep inputs startIdx n (histAfterDraw inputs startIdx n)

/-- The `HistoricalSequence` record pushed for one start index. -/
def mkHistSequence (inputs : PortfolioInputs) (retirementYears startIdx : ℕ) :
    HistoricalSequence :=
  let totalYearsNeeded := inputs.yearsToRetirement + retirementYears
  let s := histAfterDraw inputs startIdx retirementYears
  { startYear := 1928 + startIdx
    endYear := 1928 + startIdx + totalYearsNeeded - 1
    finalValue := jsMax 0 s.portfolio
    lowestValue := jsMax 0 s.lowestValue
    lowestYear := s.lowestYear
    survived := decide (0 < s.portfolio)
    yearsDepleted := s.yearsDepleted
    realReturns := s.realReturns }

/-- `runHistoricalBacktest` from cpf.ts.  The loop over start indices runs
`maxStartYear = HISTORICAL_RETURNS.length - totalYearsNeeded` times (zero
times when the horizon meets or exceeds the data, as with the JS `<`
comparison on a non-positive bound). -/
def runHistoricalBacktest (inputs : PortfolioInputs) (currentAge : ℤ)
    (retirementYears : ℕ) : HistoricalBacktestResult :=
  let totalYearsNeeded := inputs.yearsToRetirement + retirementYears
  let maxStartYear := HISTORICAL_RETURNS.length - totalYearsNeeded
  let sequences := (List.range maxStartYear).map (mkHistSequence inputs retirementYears)
  let survivedSequences := sequences.filter fun s => s.survived
  let successRate := (survivedSequences.length : ℚ) / (sequences.length : ℚ)
  let sortedByFinal := List.insertionSort (fun a b => a.finalValue ≤ b.finalValue) sequences
  let worstSequence := sortedByFinal.getD 0 histSeqZero
  let bestSequence := sortedByFinal.getLastD histSeqZero
  let finalValues := List.insertionSort (· ≤ ·) (sequences.map fun s => s.finalValue)
  let medianFinalValue := finalValues.getD (finalValues.length / 2) 0
  let averageFinalValue := finalValues.sum / (finalValues.length : ℚ)
  { sequences := sequences
    successRate := successRate
    worstSequence := worstSequence
    bestSequence := bestSequence
    medianFinalValue := medianFinalValue
    averageFinalValue := averageFinalValue
    percentSurvived30Years := successRate }

/-! ### Claims C5 and C7: historical backtest -/

theorem forall_mem_cons_of {α : Type} {p : α → Prop} {a : α} {l : List α}
    (ha : p a) (hl : ∀ x ∈ l, p x) : ∀ x ∈ a :: l, p x := by
  intro x hx
  rcases List.mem_cons.mp hx with rfl | hx
  · exact ha
  · exact hl x hx

theorem HISTORICAL_RETURNS_length : HISTORICAL_RETURNS.length = 96 := rfl

theorem HISTORICAL_INFLATION_length : HISTORICAL_INFLATION.length = 96 := rfl

set_option maxHeartbeats 1600000 in
/-- Every historical return entry is at least `-1` (the worst year, 1931,
is `-0.4384`), so `1 + return ≥ 0`. -/
theorem HISTORICAL_RETURNS_ge_negOne : ∀ x ∈ HISTORICAL_RETURNS, (-1:ℚ) ≤ x := by
  unfold HISTORICAL_RETURNS
  repeat
    first
    | exact fun x hx => absurd hx (List.not_mem_nil x)
    | refine forall_mem_cons_of (by norm_num) ?_

set_option maxHeartbeats 1600000 in
/-- Every historical inflation entry is at least `-1` (the most deflationary
year, 1932, is `-0.1027`), so `1 + inflation ≥ 0`. -/
theorem HISTORICAL_INFLATION_ge_negOne : ∀ x ∈ HISTORICAL_INFLATION, (-1:ℚ) ≤ x := by
  unfold HISTORICAL_INFLATION
  repeat
    first
    | exact fun x hx => absurd hx (List.not_mem_nil x)
    | refine forall_mem_cons_of (by norm_num) ?_

theorem getD_ge_negOne {l : List ℚ} (hl : ∀ x ∈ l, (-1:ℚ) ≤ x) (idx : ℕ) :
    (-1:ℚ) ≤ l.getD idx 0 := by
  by_cases h : idx < l.length
  · rw [List.getD_eq_getElem l 0 h]
    exact hl _ (l.getElem_mem h)
  · rw [List.getD_eq_default l 0 (Nat.le_of_not_lt h)]
    norm_num

theorem one_add_histReturn_nonneg (idx : ℕ) :
    0 ≤ 1 + HISTORICAL_RETURNS.getD idx 0 := by
  have := getD_ge_negOne HISTORICAL_RETURNS_ge_negOne idx
  linarith

theorem one_add_histInflation_nonneg (idx : ℕ) :
    0 ≤ 1 + HISTORICAL_INFLATION.getD idx 0 := by
  have := getD_ge_negOne HISTORICAL_INFLATION_ge_negOne idx
  linarith

/-- C5: `runHistoricalBacktest` produces exactly
`len(HISTORICAL_RETURNS) - (yearsToRetirement + retirementYears)` sequences
(truncated subtraction), hence an empty list — and no error — whenever the
horizon reaches or exceeds the 96-entry dataset. -/
theorem runHistoricalBacktest_sequence_count (inputs : PortfolioInputs)
    (currentAge : ℤ) (retirementYears : ℕ) :
    (runHistoricalBacktest inputs currentAge retirementYears).sequences.length
      = HISTORICAL_RETURNS.length - (inputs.yearsToRetirement + retirementYears) ∧
    HISTORICAL_RETURNS.length = 96 ∧
    (HISTORICAL_RETURNS.length ≤ inputs.yearsToRetirement + retirementYears →
      (runHistoricalBacktest inputs currentAge retirementYears).sequences = []) := by
  refine ⟨?_, rfl, ?_⟩
  · simp [runHistoricalBacktest]
  · intro h
    simp [runHistoricalBacktest, Nat.sub_eq_zero_of_le h]

/-- Witness for C5: a 100-year horizon yields the empty sequence list; a
1-year horizon yields 95 sequences. -/
theorem runHistoricalBacktest_sequence_count_witness :
    (runHistoricalBacktest ⟨0, 0, 50, 0, 0, 0⟩ 30 50).sequences = [] ∧
    (runHistoricalBacktest ⟨0, 0, 0, 0, 0, 0⟩ 30 1).sequences.length = 95 := by
  constructor
  · have h := runHistoricalBacktest_sequence_count ⟨0, 0, 50, 0, 0, 0⟩ 30 50
    exact h.2.2 (by rw [h.2.1]; norm_num)
  · have h := runHistoricalBacktest_sequence_count ⟨0, 0, 0, 0, 0, 0⟩ 30 1
    rw [h.1, h.2.1]
    norm_num

/-- Accumulation-phase invariants: non-negative portfolio, no depletion flag,
`lowestYear` within the replayed window, zero withdrawal. -/
theorem histAfterAccum_facts (inputs : PortfolioInputs) (i : ℕ)
    (hcs : 0 ≤ inputs.currentSavings) (hmc : 0 ≤ inputs.monthlyContribution) :
    ∀ n, 0 ≤ (histAfterAccum inputs i n).portfolio ∧
      (histAfterAccum inputs i n).yearsDepleted = none ∧
      (histAfterAccum inputs i n).lowestYear ≤ 1928 + (i:ℤ) + n := by
  intro n
  induction n with
  | zero =>
    refine ⟨hcs, rfl, ?_⟩
    show (1928:ℤ) + i ≤ 1928 + (i:ℤ) + ((0:ℕ):ℤ)
    simp
  | succ n ih =>
    obtain ⟨ihp, ihflag, ihlow⟩ := ih
    have hnom := one_add_histReturn_nonneg (i + n)
    refine ⟨?_, ihflag, ?_⟩
    · show 0 ≤ (histAfterAccum inputs i n).portfolio
        * (1 + HISTORICAL_RETURNS.getD (i + n) 0) + inputs.monthlyContribution * 12
      have := mul_nonneg ihp hnom
      linarith
    · show (if (histAfterAccum inputs i n).portfolio
          * (1 + HISTORICAL_RETURNS.getD (i + n) 0) + inputs.monthlyContribution * 12
          < (histAfterAccum inputs i n).lowestValue
        then ((1928:ℤ) + i + n) else (histAfterAccum inputs i n).lowestYear)
        ≤ 1928 + (i:ℤ) + (n + 1)
      split_ifs
      · push_cast
        omega
      · push_cast at ihlow ⊢
        omega

/-- The depletion flag, once set, survives every later drawdown step. -/
theorem histDrawStep_flag_some (inputs : PortfolioInputs) (i n : ℕ)
    (s : HistState) (d : ℕ) (h : s.yearsDepleted = some d) :
    (histDrawStep inputs i n s).yearsDepleted = some d := by
  simp only [histDrawStep]
  split_ifs <;> simp_all

/-- The depletion flag is monotone along the drawdown replay. -/
theorem histFlag_mono (inputs : PortfolioInputs) (i : ℕ) :
    ∀ (j n : ℕ), j ≤ n → ∀ d, (histAfterDraw inputs i j).yearsDepleted = some d →
      (histAfterDraw inputs i n).yearsDepleted = some d := by
  intro j n
  induction n with
  | zero =>
    intro hj d h
    have hj0 : j = 0 := by omega
    subst hj0
    exact h
  | succ n ih =>
    intro hj d h
    rcases Nat.lt_or_ge j (n + 1) with hlt | hge
    · show (histDrawStep inputs i n (histAfterDraw inputs i n)).yearsDepleted = some d
      exact histDrawStep_flag_some inputs i n _ d (ih (by omega) d h)
    · have : j = n + 1 := by omega
      subst this
      exact h

/-- After depletion the drawdown step freezes the observables: the portfolio
stays non-positive, the lowest-value bookkeeping is untouched, the withdrawal
stays non-negative and the flag is unchanged. -/
theorem histDrawStep_frozen (inputs : PortfolioInputs) (i n : ℕ) (s : HistState)
    (d : ℕ) (hflag : s.yearsDepleted = some d) (hp : s.portfolio ≤ 0)
    (hw : 0 ≤ s.withdrawal) :
    (histDrawStep inputs i n s).portfolio ≤ 0 ∧
    (histDrawStep inputs i n s).lowestValue = s.lowestValue ∧
    (histDrawStep inputs i n s).lowestYear = s.lowestYear ∧
    0 ≤ (histDrawStep inputs i n s).withdrawal ∧
    (histDrawStep inputs i n s).yearsDepleted = some d := by
  have hnom := one_add_histReturn_nonneg (i + inputs.yearsToRetirement + n)
  have hinf := one_add_histInflation_nonneg (i + inputs.yearsToRetirement + n)
  have hp1 : s.portfolio
      * (1 + HISTORICAL_RETURNS.getD (i + inputs.yearsToRetirement + n) 0)
      - s.withdrawal ≤ 0 := by
    have hmul : s.portfolio
        * (1 + HISTORICAL_RETURNS.getD (i + inputs.yearsToRetirement + n) 0) ≤ 0 :=
      mul_nonpos_iff.mpr (Or.inr ⟨hp, hnom⟩)
    linarith
  have hlowFalse : ¬(s.portfolio
      * (1 + HISTORICAL_RETURNS.getD (i + inputs.yearsToRetirement + n) 0)
      - s.withdrawal < s.lowestValue ∧
      0 < s.portfolio
        * (1 + HISTORICAL_RETURNS.getD (i + inputs.yearsToRetirement + n) 0)
        - s.withdrawal) := by
    rintro ⟨-, hpos⟩
    linarith
  simp only [histDrawStep, if_neg hlowFalse]
  split_ifs with h1 h2
  · exact ⟨hp, rfl, rfl, hw, hflag⟩
  · exact absurd h2.2 (by rw [hflag]; simp)
  · exact ⟨hp1, rfl, rfl, mul_nonneg hw hinf, hflag⟩

/-- Drawdown-phase invariants of a backtest sequence with non-negative
savings, contribution and withdrawal rate, for start indices whose whole
window fits in the data: the withdrawal stays non-negative; while the
depletion flag is unset the portfolio is positive (after year 0) and
`lowestYear` is within the replayed window; and once the flag records `d`
the portfolio is clamped at the depletion step, stays non-positive, the
lowest-value bookkeeping is frozen at a pre-depletion year, and the flag
was unset through year `d`. -/
theorem histInv (inputs : PortfolioInputs) (i retY : ℕ)
    (hcs : 0 ≤ inputs.currentSavings) (hmc : 0 ≤ inputs.monthlyContribution)
    (hwr : 0 ≤ inputs.withdrawalRate)
    (hrange : i + inputs.yearsToRetirement + retY ≤ HISTORICAL_RETURNS.length) :
    ∀ n, n ≤ retY →
      0 ≤ (histAfterDraw inputs i n).withdrawal ∧
      ((histAfterDraw inputs i n).yearsDepleted = none →
        ((n = 0 ∧ 0 ≤ (histAfterDraw inputs i n).portfolio) ∨
          0 < (histAfterDraw inputs i n).portfolio) ∧
        (histAfterDraw inputs i n).lowestYear
          ≤ 1928 + (i:ℤ) + inputs.yearsToRetirement + n) ∧
      (∀ d, (histAfterDraw inputs i n).yearsDepleted = some d →
        d < n ∧
        (histAfterDraw inputs i n).portfolio ≤ 0 ∧
        (histAfterDraw inputs i (d+1)).portfolio = 0 ∧
        (histAfterDraw inputs i (d+1)).yearsDepleted = some d ∧
        (histAfterDraw inputs i n).lowestYear
          ≤ 1928 + (i:ℤ) + inputs.yearsToRetirement + d ∧
        (∀ j, j ≤ d → (histAfterDraw inputs i j).yearsDepleted = none)) := by
  intro n
  induction n with
  | zero =>
    intro _
    obtain ⟨hAp, hAflag, hAlow⟩ :=
      histAfterAccum_facts inputs i hcs hmc inputs.yearsToRetirement
    refine ⟨mul_nonneg hAp hwr, ?_, ?_⟩
    · intro _
      refine ⟨Or.inl ⟨rfl, hAp⟩, ?_⟩
      show (histAfterAccum inputs i inputs.yearsToRetirement).lowestYear ≤ _
      push_cast
      push_cast at hAlow
      omega
    · intro d hd
      exact absurd ((hAflag).symm.trans hd) (by simp)
  | succ n ih =>
    intro hn1
    obtain ⟨ihW, ihNone, ihSome⟩ := ih (by omega)
    have hidx : ¬ HISTORICAL_RETURNS.length ≤ i + inputs.yearsToRetirement + n := by
      omega
    have hinf := one_add_histInflation_nonneg (i + inputs.yearsToRetirement + n)
    have hW1 : 0 ≤ (histAfterDraw inputs i (n+1)).withdrawal := by
      show 0 ≤ (histDrawStep inputs i n (histAfterDraw inputs i n)).withdrawal
      simp only [histDrawStep, if_neg hidx]
      split_ifs <;> exact mul_nonneg ihW hinf
    rcases hflagcase : (histAfterDraw inputs i n).yearsDepleted with _ | d
    · -- the flag was still unset entering year n
      obtain ⟨ihP, ihY⟩ := ihNone hflagcase
      have hp : 0 ≤ (histAfterDraw inputs i n).portfolio := by
        rcases ihP with ⟨-, h⟩ | h
        · exact h
        · exact le_of_lt h
      by_cases hdep : (histAfterDraw inputs i n).portfolio
          * (1 + HISTORICAL_RETURNS.getD (i + inputs.yearsToRetirement + n) 0)
          - (histAfterDraw inputs i n).withdrawal ≤ 0
      · -- the portfolio depletes at year n
        have hlowFalse : ¬((histAfterDraw inputs i n).portfolio
            * (1 + HISTORICAL_RETURNS.getD (i + inputs.yearsToRetirement + n) 0)
            - (histAfterDraw inputs i n).withdrawal
              < (histAfterDraw inputs i n).lowestValue ∧
            0 < (histAfterDraw inputs i n).portfolio
              * (1 + HISTORICAL_RETURNS.getD (i + inputs.yearsToRetirement + n) 0)
              - (histAfterDraw inputs i n).withdrawal) := by
          rintro ⟨-, hpos⟩
          linarith
        have hflag1 : (histAfterDraw inputs i (n+1)).yearsDepleted = some n := by
          show (histDrawStep inputs i n (histAfterDraw inputs i n)).yearsDepleted = some n
          simp only [histDrawStep, if_neg hidx]
          rw [if_pos ⟨hdep, hflagcase⟩]
        have hport1 : (histAfterDraw inputs i (n+1)).portfolio = 0 := by
          show (histDrawStep inputs i n (histAfterDraw inputs i n)).portfolio = 0
          simp only [histDrawStep, if_neg hidx]
          rw [if_pos ⟨hdep, hflagcase⟩]
        have hlow1 : (histAfterDraw inputs i (n+1)).lowestYear
            = (histAfterDraw inputs i n).lowestYear := by
          show (histDrawStep inputs i n (histAfterDraw inputs i n)).lowestYear = _
          simp only [histDrawStep, if_neg hidx]
          rw [if_pos ⟨hdep, hflagcase⟩]
          show (if _ then _ else _) = _
          rw [if_neg hlowFalse]
        refine ⟨hW1, ?_, ?_⟩
        · intro hcontr
          exact absurd (hflag1.symm.trans hcontr) (by simp)
        · intro d' hd'
          obtain rfl : n = d' := Option.some.inj (hflag1.symm.trans hd')
          refine ⟨by omega, le_of_eq hport1, hport1, hflag1, ?_, ?_⟩
          · rw [hlow1]
            exact ihY
          · intro j hj
            rcases h' : (histAfterDraw inputs i j).yearsDepleted with _ | e
            · rfl
            · exact absurd ((histFlag_mono inputs i j n hj e h').symm.trans hflagcase)
                (by simp)
      · -- the portfolio survives year n
        have hflag1 : (histAfterDraw inputs i (n+1)).yearsDepleted = none := by
          show (histDrawStep inputs i n (histAfterDraw inputs i n)).yearsDepleted = none
          simp only [histDrawStep, if_neg hidx]
          rw [if_neg (fun h' => hdep h'.1)]
          exact hflagcase
        have hport1 : 0 < (histAfterDraw inputs i (n+1)).portfolio := by
          show 0 < (histDrawStep inputs i n (histAfterDraw inputs i n)).portfolio
          simp only [histDrawStep, if_neg hidx]
          rw [if_neg (fun h' => hdep h'.1)]
          exact lt_of_not_le hdep
        refine ⟨hW1, ?_, ?_⟩
        · intro _
          refine ⟨Or.inr hport1, ?_⟩
          show (histDrawStep inputs i n (histAfterDraw inputs i n)).lowestYear ≤ _
          simp only [histDrawStep, if_neg hidx]
          rw [if_neg (fun h' => hdep h'.1)]
          show (if _ then ((1928:ℤ) + i + inputs.yearsToRetirement + n) else _) ≤ _
          split_ifs
          · exact add_le_add_left (by exact_mod_cast Nat.le_succ n) _
          · exact le_trans ihY (add_le_add_left (by exact_mod_cast Nat.le_succ n) _)
        · intro d' hd'
          exact absurd (hflag1.symm.trans hd') (by simp)
    · -- the flag already records depletion year d
      obtain ⟨hdlt, hple, hd1, hd1flag, hlowb, hprefix⟩ := ihSome d hflagcase
      have hfro := histDrawStep_frozen inputs i n _ d hflagcase hple ihW
      refine ⟨hW1, ?_, ?_⟩
      · intro hcontr
        exact absurd ((hfro.2.2.2.2).symm.trans hcontr) (by simp)
      · intro d' hd'
        obtain rfl : d = d' := Option.some.inj ((hfro.2.2.2.2).symm.trans hd')
        refine ⟨by omega, hfro.1, hd1, hd1flag, ?_, hprefix⟩
        rw [show (histAfterDraw inputs i (n+1)).lowestYear
          = (histAfterDraw inputs i n).lowestYear from hfro.2.2.1]
        exact hlowb

/-- C7: for every backtest sequence (non-negative savings, contribution and
withdrawal rate) that records a depletion year `d`: `d` is the first
drawdown year offset at which the replayed portfolio drops `≤ 0` (every
earlier year ends positive, and the portfolio is clamped to exactly 0 at
year `d`), the observable portfolio (`max(0, ·)`) is 0 for the whole
remainder of the sequence, `finalValue` is 0, `survived` is false, and the
lowest-value bookkeeping was taken no later than the depletion year. -/
theorem runHistoricalBacktest_depletion (inputs : PortfolioInputs)
    (currentAge : ℤ) (retirementYears : ℕ)
    (hcs : 0 ≤ inputs.currentSavings) (hmc : 0 ≤ inputs.monthlyContribution)
    (hwr : 0 ≤ inputs.withdrawalRate) :
    ∀ (idx : ℕ) (s : HistoricalSequence) (d : ℕ),
      (runHistoricalBacktest inputs currentAge retirementYears).sequences[idx]?
        = some s →
      s.yearsDepleted = some d →
      s.finalValue = 0 ∧
      s.survived = false ∧
      d < retirementYears ∧
      (histAfterDraw inputs idx (d+1)).portfolio = 0 ∧
      (∀ j, j < d → 0 < (histAfterDraw inputs idx (j+1)).portfolio) ∧
      (∀ m, d < m → m ≤ retirementYears →
        jsMax 0 (histAfterDraw inputs idx m).portfolio = 0) ∧
      s.lowestYear ≤ 1928 + (idx:ℤ) + inputs.yearsToRetirement + d := by
  intro idx s d hs hd
  have hs' : ((List.range (HISTORICAL_RETURNS.length
      - (inputs.yearsToRetirement + retirementYears))).map
      (mkHistSequence inputs retirementYears))[idx]? = some s := hs
  obtain ⟨hidx, rfl⟩ := getElem?_range_map_inv _ _ _ _ hs'
  have hrange : idx + inputs.yearsToRetirement + retirementYears
      ≤ HISTORICAL_RETURNS.length := by omega
  have hflag : (histAfterDraw inputs idx retirementYears).yearsDepleted = some d := hd
  obtain ⟨hdlt, hple, hd1, hd1flag, hlowb, hprefix⟩ :=
    (histInv inputs idx retirementYears hcs hmc hwr hrange retirementYears
      le_rfl).2.2 d hflag
  refine ⟨?_, ?_, hdlt, hd1, ?_, ?_, hlowb⟩
  · show jsMax 0 (histAfterDraw inputs idx retirementYears).portfolio = 0
    exact jsMax_zero_of_nonpos hple
  · show decide (0 < (histAfterDraw inputs idx retirementYears).portfolio) = false
    exact decide_eq_false (not_lt.mpr hple)
  · intro j hj
    have hjflag : (histAfterDraw inputs idx (j+1)).yearsDepleted = none :=
      hprefix (j+1) (by omega)
    have hj1 := ((histInv inputs idx retirementYears hcs hmc hwr hrange (j+1)
      (by omega)).2.1 hjflag).1
    rcases hj1 with ⟨habs, -⟩ | h
    · omega
    · exact h
  · intro m hm1 hm2
    have hmflag : (histAfterDraw inputs idx m).yearsDepleted = some d :=
      histFlag_mono inputs idx (d+1) m (by omega) d hd1flag
    exact jsMax_zero_of_nonpos
      ((histInv inputs idx retirementYears hcs hmc hwr hrange m hm2).2.2 d hmflag).2.1

/-- Witness for C7: with all-zero inputs and one retirement year, the 1928
sequence depletes at year offset 0; its final value is 0, it did not
survive, and the portfolio remains clamped at 0. -/
theorem runHistoricalBacktest_depletion_witness :
    (mkHistSequence ⟨0, 0, 0, 0, 0, 0⟩ 1 0).finalValue = 0 ∧
    (mkHistSequence ⟨0, 0, 0, 0, 0, 0⟩ 1 0).survived = false ∧
    jsMax 0 (histAfterDraw ⟨0, 0, 0, 0, 0, 0⟩ 0 1).portfolio = 0 := by
  have hs0 : histStartDraw ⟨0, 0, 0, 0, 0, 0⟩ 0 = ⟨0, 0, 1928, none, [], 0⟩ := by
    norm_num [histStartDraw, show histAfterAccum ⟨0, 0, 0, 0, 0, 0⟩ 0 0
      = ⟨0, 0, 1928, none, [], 0⟩ from rfl]
  have hflag1 : (histAfterDraw ⟨0, 0, 0, 0, 0, 0⟩ 0 1).yearsDepleted = some 0 := by
    show (histDrawStep ⟨0, 0, 0, 0, 0, 0⟩ 0 0
      (histAfterDraw ⟨0, 0, 0, 0, 0, 0⟩ 0 0)).yearsDepleted = some 0
    rw [show histAfterDraw ⟨0, 0, 0, 0, 0, 0⟩ 0 0
      = histStartDraw ⟨0, 0, 0, 0, 0, 0⟩ 0 from rfl, hs0]
    norm_num [histDrawStep, HISTORICAL_RETURNS_length]
  have hseq : (runHistoricalBacktest ⟨0, 0, 0, 0, 0, 0⟩ 30 1).sequences[0]?
      = some (mkHistSequence ⟨0, 0, 0, 0, 0, 0⟩ 1 0) := by
    show ((List.range (HISTORICAL_RETURNS.length - (0 + 1))).map
      (mkHistSequence ⟨0, 0, 0, 0, 0, 0⟩ 1))[0]? = _
    exact getElem?_range_map _ _ _ (by norm_num [HISTORICAL_RETURNS_length])
  have h := runHistoricalBacktest_depletion ⟨0, 0, 0, 0, 0, 0⟩ 30 1
    le_rfl le_rfl le_rfl 0 _ 0 hseq hflag1
  exact ⟨h.1, h.2.1, h.2.2.2.2.2.1 1 (by omega) (by omega)⟩
